import Mathlib

/-!
Verification of the color-scheme generator (tools/generate-colors.ts).

The TypeScript source is shallowly embedded below.  JavaScript numbers are
modelled as exact rationals (`ℚ`); `Math.round` is modelled as the
round-half-up map `jsRound`, the JavaScript `%` operator on numbers as
`jsMod` (remainder with the sign of the dividend), and fallible parsing as
`Except String`.  All definitions follow the source text; the few
`…Spec` definitions are stated from the specification's own wording and are
compared against the source-derived ones in the theorems.
-/

/-- RGB triple, as in the source interface (numeric channels). -/
structure RGB where
  r : ℚ
  g : ℚ
  b : ℚ
deriving DecidableEq

/-- HSL triple: hue in degrees, saturation and lightness as fractions. -/
structure HSL where
  h : ℚ
  s : ℚ
  l : ℚ
deriving DecidableEq

/-- The palette record returned by `generateColorScheme`. -/
structure ColorScheme where
  primary : String
  primaryLight : String
  primaryDark : String
  primaryGlow : String
  cyan : String
  indigo : String
  gradientPrimary : String
  gradientBlue : String
  gradientBlueIntense : String
  gradientAccent : String
  glowPrimary : String
  glowBlue : String
  glowCyan : String
  themeColor : String
deriving DecidableEq

/-- JavaScript `Math.round` (round half toward positive infinity). -/
def jsRound (q : ℚ) : ℤ := ⌊q + 1/2⌋

/-- Truncation toward zero, as used by the JavaScript `%` operator. -/
def jsTrunc (q : ℚ) : ℤ := if 0 ≤ q then ⌊q⌋ else ⌈q⌉

/-- JavaScript `%` on numbers: remainder carrying the dividend's sign. -/
def jsMod (a b : ℚ) : ℚ := a - b * jsTrunc (a / b)

/-- Characters matched by the regex class `[a-f\d]` with the `i` flag. -/
def isHexDigitChar (c : Char) : Bool :=
  (48 ≤ c.toNat && c.toNat ≤ 57) || (97 ≤ c.toNat && c.toNat ≤ 102) ||
    (65 ≤ c.toNat && c.toNat ≤ 70)

/-- Value of a hex digit (digit, lowercase or uppercase letter). -/
def hexDigitVal (c : Char) : ℕ :=
  if c.toNat ≤ 57 then c.toNat - 48
  else if 97 ≤ c.toNat then c.toNat - 87
  else c.toNat - 55

/-- `parseInt(d₁d₂, 16)` for two hex digits. -/
def hexPairVal (c1 c2 : Char) : ℕ := 16 * hexDigitVal c1 + hexDigitVal c2

/-- The lowercase hex digit for a value below 16 (as in `toString(16)`). -/
def hexDigitChar (n : ℕ) : Char :=
  if n < 10 then Char.ofNat (48 + n) else Char.ofNat (87 + n)

/-- `hex.startsWith('#')`. -/
def startsWithHash (s : String) : Bool :=
  match s.data with
  | c :: _ => c = '#'
  | [] => false

/-- The characters of `s` with one optional leading `#` stripped, as
consumed by the regex `^#?([a-f\d]{2})([a-f\d]{2})([a-f\d]{2})$`. -/
def hexBody (s : String) : List Char :=
  match s.data with
  | c :: rest => if c = '#' then rest else s.data
  | [] => s.data

/-- Step 1 of `generateColorScheme`: prepend `#` when it is missing. -/
def canonicalSeed (s : String) : String :=
  if startsWithHash s then s else "#" ++ s

/-- ASCII lowercasing of a string, character by character. -/
def lowerStr (s : String) : String := String.mk (s.data.map Char.toLower)

/-- `hexToRgb` from the source: parse `#?rrggbb`, else throw
`Invalid hex color: <input>`. -/
def hexToRgb (hex : String) : Except String RGB :=
  match hexBody hex with
  | [c1, c2, c3, c4, c5, c6] =>
    if isHexDigitChar c1 && isHexDigitChar c2 && isHexDigitChar c3 &&
        isHexDigitChar c4 && isHexDigitChar c5 && isHexDigitChar c6 then
      .ok ⟨(hexPairVal c1 c2 : ℕ), (hexPairVal c3 c4 : ℕ), (hexPairVal c5 c6 : ℕ)⟩
    else .error ("Invalid hex color: " ++ hex)
  | _ => .error ("Invalid hex color: " ++ hex)

/-- The numeric part of `toHex` in `rgbToHex`:
`Math.round(Math.max(0, Math.min(255, n)))`. -/
def clampRound (x : ℚ) : ℤ := jsRound (max 0 (min 255 x))

/-- `n.toString(16).padStart(2, '0')` for an integer in `[0, 255]`. -/
def byteHex (n : ℤ) : String :=
  String.mk [hexDigitChar (n.toNat / 16), hexDigitChar (n.toNat % 16)]

/-- `rgbToHex` from the source. -/
def rgbToHex (rgb : RGB) : String :=
  "#" ++ byteHex (clampRound rgb.r) ++ byteHex (clampRound rgb.g) ++
    byteHex (clampRound rgb.b)

/-- `rgbToHsl` from the source. -/
def rgbToHsl (rgb : RGB) : HSL :=
  let r := rgb.r / 255
  let g := rgb.g / 255
  let b := rgb.b / 255
  let mx := max r (max g b)
  let mn := min r (min g b)
  let l := (mx + mn) / 2
  if mx = mn then ⟨0, 0, l⟩
  else
    let d := mx - mn
    let s := if l > 1/2 then d / (2 - mx - mn) else d / (mx + mn)
    let h :=
      if mx = r then ((g - b) / d + (if g < b then 6 else 0)) / 6
      else if mx = g then ((b - r) / d + 2) / 6
      else ((r - g) / d + 4) / 6
    ⟨h * 360, s, l⟩

/-- The `hue2rgb` helper inside `hslToRgb`. -/
def hue2rgb (p q t0 : ℚ) : ℚ :=
  let t1 := if t0 < 0 then t0 + 1 else t0
  let t := if t1 > 1 then t1 - 1 else t1
  if t < 1/6 then p + (q - p) * 6 * t
  else if t < 1/2 then q
  else if t < 2/3 then p + (q - p) * (2/3 - t) * 6
  else p

/-- The `q` intermediate of `hslToRgb`. -/
def qOf (s l : ℚ) : ℚ := if l < 1/2 then l * (1 + s) else l + s - l * s

/-- `hslToRgb` from the source. -/
def hslToRgb (hsl : HSL) : RGB :=
  let hNorm := hsl.h / 360
  if hsl.s = 0 then
    let val := jsRound (hsl.l * 255)
    ⟨(val : ℚ), (val : ℚ), (val : ℚ)⟩
  else
    let q := qOf hsl.s hsl.l
    let p := 2 * hsl.l - q
    ⟨(jsRound (hue2rgb p q (hNorm + 1/3) * 255) : ℚ),
      (jsRound (hue2rgb p q hNorm * 255) : ℚ),
      (jsRound (hue2rgb p q (hNorm - 1/3) * 255) : ℚ)⟩

/-- `lighten` from the source. -/
def lighten (hex : String) (percent : ℚ) : Except String String := do
  let rgb ← hexToRgb hex
  let hsl := rgbToHsl rgb
  pure (rgbToHex (hslToRgb { hsl with l := min 1 (hsl.l + percent) }))

/-- `darken` from the source. -/
def darken (hex : String) (percent : ℚ) : Except String String := do
  let rgb ← hexToRgb hex
  let hsl := rgbToHsl rgb
  pure (rgbToHex (hslToRgb { hsl with l := max 0 (hsl.l - percent) }))

/-- `saturate` from the source. -/
def saturate (hex : String) (percent : ℚ) : Except String String := do
  let rgb ← hexToRgb hex
  let hsl := rgbToHsl rgb
  pure (rgbToHex (hslToRgb { hsl with s := min 1 (hsl.s + percent) }))

/-- `shiftHue` from the source. -/
def shiftHue (hex : String) (degrees : ℚ) : Except String String := do
  let rgb ← hexToRgb hex
  let hsl := rgbToHsl rgb
  pure (rgbToHex (hslToRgb { hsl with h := jsMod (hsl.h + degrees + 360) 360 }))

/-- JavaScript number-to-string conversion, for the values the generator
prints: integers and rationals with a finite decimal expansion. -/
def decimalString (q : ℚ) : String :=
  if q.den = 1 then toString q.num
  else
    match (List.range 30).find? (fun k => (q * (10:ℚ) ^ k).den = 1) with
    | some k =>
      let sign := if q < 0 then "-" else ""
      let m := (|q| * (10:ℚ) ^ k).num.toNat
      let frac := toString (m % 10 ^ k)
      let pad := String.mk (List.replicate (k - frac.length) '0')
      sign ++ toString (m / 10 ^ k) ++ "." ++ pad ++ frac
    | none => toString q.num ++ "/" ++ toString q.den

/-- The template `rgba(${r}, ${g}, ${b}, ${alpha})`. -/
def rgbaString (rgb : RGB) (alpha : ℚ) : String :=
  "rgba(" ++ decimalString rgb.r ++ ", " ++ decimalString rgb.g ++ ", " ++
    decimalString rgb.b ++ ", " ++ decimalString alpha ++ ")"

/-- `hexToRgba` from the source. -/
def hexToRgba (hex : String) (alpha : ℚ) : Except String String := do
  let rgb ← hexToRgb hex
  pure (rgbaString rgb alpha)

/-- Channel gamma expansion inside `getLuminance`, from the source:
`v <= 0.03928 ? v / 12.92 : Math.pow((v + 0.055) / 1.055, 2.4)`. -/
noncomputable def gammaExpand (v : ℝ) : ℝ :=
  if v ≤ 0.03928 then v / 12.92 else ((v + 0.055) / 1.055) ^ (2.4 : ℝ)

/-- `getLuminance` from the source. -/
noncomputable def getLuminance (hex : String) : Except String ℝ := do
  let rgb ← hexToRgb hex
  pure (0.2126 * gammaExpand ((rgb.r : ℝ) / 255) +
    0.7152 * gammaExpand ((rgb.g : ℝ) / 255) +
    0.0722 * gammaExpand ((rgb.b : ℝ) / 255))

/-- `shouldUseWhiteText` from the source: `luminance < 0.5`. -/
noncomputable def shouldUseWhiteText (bgHex : String) : Except String Prop := do
  let luminance ← getLuminance bgHex
  pure (luminance < 0.5)

/-- Channel gamma expansion as worded by the specification: normalize to
`[0,1]`, then `v/12.92` if `v ≤ 0.03928`, else `((v+0.055)/1.055)^2.4`. -/
noncomputable def gammaExpandSpec (v : ℝ) : ℝ :=
  if v ≤ 0.03928 then v / 12.92 else ((v + 0.055) / 1.055) ^ (2.4 : ℝ)

/-- Relative luminance as worded by the specification:
`0.2126·r + 0.7152·g + 0.0722·b` over gamma-expanded channels. -/
noncomputable def relativeLuminanceSpec (rgb : RGB) : ℝ :=
  0.2126 * gammaExpandSpec ((rgb.r : ℝ) / 255) +
    0.7152 * gammaExpandSpec ((rgb.g : ℝ) / 255) +
    0.0722 * gammaExpandSpec ((rgb.b : ℝ) / 255)

/-- `generateColorScheme` from the source.  The inline template
subexpressions (`darken(primary, 0.15)` and the `hexToRgba` calls) are
hoisted into the monad; evaluation order and the single failure path are
unchanged. -/
def generateColorScheme (primaryHex : String) : Except String ColorScheme := do
  let primary := canonicalSeed primaryHex
  let _ ← hexToRgb primary
  let primaryLight ← lighten primary (15/100)
  let primaryDark ← darken primary (12/100)
  let rgb ← hexToRgb primary
  let hsl := rgbToHsl rgb
  let cyanHsl : HSL :=
    ⟨180 + jsMod hsl.h 30, min 1 (hsl.s * (11/10)), min (85/100) (hsl.l + 1/10)⟩
  let cyan := rgbToHex (hslToRgb cyanHsl)
  let indigoHsl : HSL :=
    ⟨240 + jsMod hsl.h 20, min 1 (hsl.s * (9/10)), hsl.l * (95/100)⟩
  let indigo := rgbToHex (hslToRgb indigoHsl)
  let primaryGlow ← hexToRgba primary (4/10)
  let intenseDark ← darken primary (15/100)
  let glowPrimaryRgba ← hexToRgba primary (4/10)
  let glowBlueRgba ← hexToRgba primary (35/100)
  let glowCyanRgba ← hexToRgba cyan (3/10)
  pure
    { primary := primary
      primaryLight := primaryLight
      primaryDark := primaryDark
      primaryGlow := primaryGlow
      cyan := cyan
      indigo := indigo
      gradientPrimary := "linear-gradient(135deg, " ++ primaryDark ++ " 0%, " ++
        primary ++ " 50%, " ++ cyan ++ " 100%)"
      gradientBlue := "linear-gradient(135deg, " ++ primary ++ " 0%, " ++
        cyan ++ " 100%)"
      gradientBlueIntense := "linear-gradient(135deg, " ++ intenseDark ++
        " 0%, " ++ primary ++ " 50%, " ++ primaryLight ++ " 100%)"
      gradientAccent := "linear-gradient(135deg, " ++ primary ++ " 0%, " ++
        indigo ++ " 100%)"
      glowPrimary := "0 0 80px " ++ glowPrimaryRgba
      glowBlue := "0 0 80px " ++ glowBlueRgba
      glowCyan := "0 0 80px " ++ glowCyanRgba
      themeColor := primary }

/-- Constant text of the `generateCSS` template before the banner seed. -/
def cssChunk0 : String :=
  "/* ===========================================\n   Color Tokens - Info Evry Design System\n   Generated from primary color: "

/-- Template text from the banner seed to `--color-primary:`. -/
def cssChunk1 : String :=
  "\n   =========================================== */\n\n:root \x7b\n  /* Background Colors */\n  --color-bg: #000000;\n  --color-bg-subtle: #050505;\n  --color-surface: #111111;\n  --color-surface-elevated: #1a1a1a;\n  --color-surface-hover: #242424;\n  --color-surface-form: #0d0d0d;\n\n  /* Text Colors */\n  --color-text: #ffffff;\n  --color-text-secondary: #a1a1a1;\n  --color-text-muted: #666666;\n\n  /* Primary Color */\n  --color-primary: "

/-- Template text up to `--color-primary-light:`. -/
def cssChunk2 : String := ";\n  --color-primary-light: "

/-- Template text up to `--color-primary-dark:`. -/
def cssChunk3 : String := ";\n  --color-primary-dark: "

/-- Template text up to `--color-primary-glow:`. -/
def cssChunk4 : String := ";\n  --color-primary-glow: "

/-- Template text up to `--color-cyan:`. -/
def cssChunk5 : String := ";\n\n  /* Accent Colors */\n  --color-cyan: "

/-- Template text up to `--color-indigo:`. -/
def cssChunk6 : String := ";\n  --color-indigo: "

/-- Template text up to `--gradient-primary:`. -/
def cssChunk7 : String :=
  ";\n  --color-green: #10b981;\n  --color-orange: #f59e0b;\n\n  /* Semantic Colors */\n  --color-success: #10b981;\n  --color-success-light: rgba(16, 185, 129, 0.15);\n  --color-warning: #f59e0b;\n  --color-warning-light: rgba(245, 158, 11, 0.15);\n  --color-error: #ef4444;\n  --color-error-light: rgba(239, 68, 68, 0.15);\n\n  /* Gradients */\n  --gradient-primary: "

/-- Template text up to `--gradient-blue:`. -/
def cssChunk8 : String := ";\n  --gradient-blue: "

/-- Template text up to `--gradient-blue-intense:`. -/
def cssChunk9 : String := ";\n  --gradient-blue-intense: "

/-- Template text up to `--gradient-accent:`. -/
def cssChunk10 : String := ";\n  --gradient-accent: "

/-- Template text up to `--glow-primary:`. -/
def cssChunk11 : String :=
  ";\n  --gradient-radial: radial-gradient(ellipse at center, var(--color-surface) 0%, var(--color-bg) 100%);\n\n  /* Glow Effects */\n  --glow-primary: "

/-- Template text up to `--glow-blue:`. -/
def cssChunk12 : String := ";\n  --glow-blue: "

/-- Template text up to `--glow-cyan:`. -/
def cssChunk13 : String := ";\n  --glow-cyan: "

/-- Closing constant text of the `generateCSS` template. -/
def cssChunk14 : String :=
  ";\n\n  /* Borders */\n  --border-subtle: rgba(255, 255, 255, 0.08);\n  --border-default: rgba(255, 255, 255, 0.15);\n  --border-hover: rgba(255, 255, 255, 0.25);\n\x7d\n"

/-- `generateCSS` from the source: the fixed template with the palette
fields interpolated at their fourteen splice points. -/
def generateCSS (scheme : ColorScheme) : String :=
  cssChunk0 ++ scheme.primary ++ cssChunk1 ++ scheme.primary ++ cssChunk2 ++
    scheme.primaryLight ++ cssChunk3 ++ scheme.primaryDark ++ cssChunk4 ++
    scheme.primaryGlow ++ cssChunk5 ++ scheme.cyan ++ cssChunk6 ++
    scheme.indigo ++ cssChunk7 ++ scheme.gradientPrimary ++ cssChunk8 ++
    scheme.gradientBlue ++ cssChunk9 ++ scheme.gradientBlueIntense ++
    cssChunk10 ++ scheme.gradientAccent ++ cssChunk11 ++ scheme.glowPrimary ++
    cssChunk12 ++ scheme.glowBlue ++ cssChunk13 ++ scheme.glowCyan ++ cssChunk14

/-- Concatenation of a list of strings, in order. -/
def concatStrs : List String → String
  | [] => ""
  | s :: rest => s ++ concatStrs rest

/-- The pieces of the `generateCSS` template, in output order: constant
chunks interleaved with the palette fields. -/
def cssPieces (scheme : ColorScheme) : List String :=
  [cssChunk0, scheme.primary, cssChunk1, scheme.primary, cssChunk2,
    scheme.primaryLight, cssChunk3, scheme.primaryDark, cssChunk4,
    scheme.primaryGlow, cssChunk5, scheme.cyan, cssChunk6, scheme.indigo,
    cssChunk7, scheme.gradientPrimary, cssChunk8, scheme.gradientBlue,
    cssChunk9, scheme.gradientBlueIntense, cssChunk10, scheme.gradientAccent,
    cssChunk11, scheme.glowPrimary, cssChunk12, scheme.glowBlue, cssChunk13,
    scheme.glowCyan, cssChunk14]

/-- Characters serialized verbatim by `JSON.stringify` inside a string
literal: printable and needing no escape. -/
def isPlainChar (c : Char) : Bool :=
  (32 ≤ c.toNat) && !(c = '"') && !(c = '\\')

/-- String escaping of `JSON.stringify` for one character. -/
def jsonEscapeChar (c : Char) : String :=
  if c = '"' then "\\\""
  else if c = '\\' then "\\\\"
  else if c = '\n' then "\\n"
  else if c = '\r' then "\\r"
  else if c = '\t' then "\\t"
  else if c.toNat = 8 then "\\b"
  else if c.toNat = 12 then "\\f"
  else if c.toNat < 32 then
    "\\u00" ++ String.mk [hexDigitChar (c.toNat / 16), hexDigitChar (c.toNat % 16)]
  else String.mk [c]

/-- String escaping of `JSON.stringify`. -/
def jsonEscape (s : String) : String := concatStrs (s.data.map jsonEscapeChar)

/-- The `"key": "value"` entry lines of `JSON.stringify(·, null, 2)`,
two-space indented and joined by `,\n`. -/
def jsonEntries : List (String × String) → String
  | [] => ""
  | [kv] => "  \x22" ++ jsonEscape kv.1 ++ "\x22: \x22" ++ jsonEscape kv.2 ++ "\x22"
  | kv :: rest =>
    "  \x22" ++ jsonEscape kv.1 ++ "\x22: \x22" ++ jsonEscape kv.2 ++ "\x22" ++
      ",\n" ++ jsonEntries rest

/-- `JSON.stringify(object, null, 2)` for a flat object with string
values, in field order. -/
def jsonStringifyFlat (fields : List (String × String)) : String :=
  match fields with
  | [] => "\x7b\x7d"
  | _ => "\x7b\n" ++ jsonEntries fields ++ "\n\x7d"

/-- `generateJSON` from the source: `JSON.stringify` of the six documented
fields with two-space indentation. -/
def generateJSON (scheme : ColorScheme) : String :=
  jsonStringifyFlat
    [("primary", scheme.primary), ("primaryLight", scheme.primaryLight),
      ("primaryDark", scheme.primaryDark), ("cyan", scheme.cyan),
      ("indigo", scheme.indigo), ("themeColor", scheme.themeColor)]

/-- Parse a double-quoted string body without escape sequences; returns the
content and the input remaining after the closing quote.  Together with
`parseFlatStringObject` this models `JSON.parse` on the flat string-object
grammar that `generateJSON` emits. -/
def parseQuoted : List Char → Option (List Char × List Char)
  | [] => none
  | c :: rest =>
    if c = '"' then some ([], rest)
    else if c = '\\' then none
    else do
      let (s, r) ← parseQuoted rest
      pure (c :: s, r)

/-- Parse the two-space-indented `"key": "value"` entries of a serialized
flat object, separated by `,\n` and terminated by `\n` and a closing brace.
The first argument is recursion fuel. -/
def parseEntries : ℕ → List Char → Option (List (String × String))
  | 0, _ => none
  | fuel + 1, cs =>
    match cs with
    | ' ' :: ' ' :: '"' :: rest => do
      let (k, r1) ← parseQuoted rest
      match r1 with
      | ':' :: ' ' :: '"' :: r2 => do
        let (v, r3) ← parseQuoted r2
        if r3 = ['\n', Char.ofNat 125] then pure [(String.mk k, String.mk v)]
        else
          match r3 with
          | ',' :: '\n' :: r4 => do
            let tail ← parseEntries fuel r4
            pure ((String.mk k, String.mk v) :: tail)
          | _ => none
      | _ => none
    | _ => none

/-- `JSON.parse` restricted to the flat string-object documents produced by
`generateJSON`: an object whose values are plain strings, rendered with
two-space indentation. -/
def parseFlatStringObject (s : String) : Option (List (String × String)) :=
  match s.data with
  | c :: '\n' :: rest =>
    if c = Char.ofNat 123 then parseEntries (rest.length + 1) rest else none
  | _ => none

/-- The pattern `^#?[0-9a-fA-F]{6}$` from the specification. -/
def matchesHexPattern (s : String) : Bool :=
  (hexBody s).length = 6 && (hexBody s).all isHexDigitChar

/-- A lowercase hex digit or decimal digit. -/
def isLowerHexDigit (c : Char) : Bool :=
  (48 ≤ c.toNat && c.toNat ≤ 57) || (97 ≤ c.toNat && c.toNat ≤ 102)

/-- The pattern `^#[0-9a-f]{6}$`: canonical lowercase hex color output. -/
def matchesLowerHexPattern (s : String) : Bool :=
  match s.data with
  | '#' :: rest => rest.length = 6 && rest.all isLowerHexDigit
  | _ => false

/-- Sum of the three channel values of an RGB triple. -/
def sumChannels (rgb : RGB) : ℚ := rgb.r + rgb.g + rgb.b

/-- Substring containment, used to state the serializer-coverage claims. -/
def strContains (s pat : String) : Prop := pat.data <:+: s.data

instance strContainsDecidable (s pat : String) : Decidable (strContains s pat) :=
  List.decidableInfix pat.data s.data

/-- `s` begins with `pat`, used to state the style-sheet prefix claim. -/
def strStartsWith (s pat : String) : Prop := pat.data <+: s.data

/-- The required custom-property names of the style-sheet output. -/
def requiredCssNames : List String :=
  ["--color-bg", "--color-surface", "--color-text", "--color-primary",
    "--color-primary-light", "--color-primary-dark", "--color-primary-glow",
    "--color-cyan", "--color-indigo", "--color-success", "--color-warning",
    "--color-error", "--gradient-primary", "--gradient-blue",
    "--gradient-blue-intense", "--gradient-accent", "--glow-primary",
    "--glow-blue", "--glow-cyan", "--border-subtle", "--border-default",
    "--border-hover"]

/-- The channel triple that `hexToRgb` recovers from `rgbToHex` output:
each channel clamped to `[0,255]` and rounded. -/
def clampRoundRGB (v : RGB) : RGB :=
  ⟨((clampRound v.r : ℤ) : ℚ), ((clampRound v.g : ℤ) : ℚ), ((clampRound v.b : ℤ) : ℚ)⟩

/-- The HSL triple from which the `cyan` accent is rendered (step 4 of
`generateColorScheme`). -/
def cyanHslOf (hsl : HSL) : HSL :=
  ⟨180 + jsMod hsl.h 30, min 1 (hsl.s * (11/10)), min (85/100) (hsl.l + 1/10)⟩

/-- The HSL triple from which the `indigo` accent is rendered (step 5 of
`generateColorScheme`). -/
def indigoHslOf (hsl : HSL) : HSL :=
  ⟨240 + jsMod hsl.h 20, min 1 (hsl.s * (9/10)), hsl.l * (95/100)⟩

/-- The palette record `generateColorScheme` produces once its seed has
been validated, written without the monadic plumbing: `primary` is the
canonicalized seed and `rgb` its parsed channels. -/
def schemeOf (primary : String) (rgb : RGB) : ColorScheme :=
  let hsl := rgbToHsl rgb
  let primaryLight := rgbToHex (hslToRgb { hsl with l := min 1 (hsl.l + 15/100) })
  let primaryDark := rgbToHex (hslToRgb { hsl with l := max 0 (hsl.l - 12/100) })
  let cyan := rgbToHex (hslToRgb (cyanHslOf hsl))
  let indigo := rgbToHex (hslToRgb (indigoHslOf hsl))
  let intenseDark := rgbToHex (hslToRgb { hsl with l := max 0 (hsl.l - 15/100) })
  { primary := primary
    primaryLight := primaryLight
    primaryDark := primaryDark
    primaryGlow := rgbaString rgb (4/10)
    cyan := cyan
    indigo := indigo
    gradientPrimary := "linear-gradient(135deg, " ++ primaryDark ++ " 0%, " ++
      primary ++ " 50%, " ++ cyan ++ " 100%)"
    gradientBlue := "linear-gradient(135deg, " ++ primary ++ " 0%, " ++
      cyan ++ " 100%)"
    gradientBlueIntense := "linear-gradient(135deg, " ++ intenseDark ++
      " 0%, " ++ primary ++ " 50%, " ++ primaryLight ++ " 100%)"
    gradientAccent := "linear-gradient(135deg, " ++ primary ++ " 0%, " ++
      indigo ++ " 100%)"
    glowPrimary := "0 0 80px " ++ rgbaString rgb (4/10)
    glowBlue := "0 0 80px " ++ rgbaString rgb (35/100)
    glowCyan := "0 0 80px " ++
      rgbaString (clampRoundRGB (hslToRgb (cyanHslOf hsl))) (3/10)
    themeColor := primary }

/-! ### Basic numeric lemmas -/

theorem okBind {ε α β : Type} (a : α) (f : α → Except ε β) :
    (Except.ok a >>= f : Except ε β) = f a := rfl

theorem jsRound_intCast (n : ℤ) : jsRound (n : ℚ) = n := by
  unfold jsRound
  rw [Int.floor_eq_iff] <;> push_cast <;> constructor <;> linarith

theorem jsRound_natCast (n : ℕ) : jsRound (n : ℚ) = n := by
  have := jsRound_intCast (n : ℤ)
  push_cast at this
  exact_mod_cast this

theorem jsRound_le (x : ℚ) : (jsRound x : ℚ) ≤ x + 1/2 := Int.floor_le _

theorem jsRound_gt (x : ℚ) : x - 1/2 < (jsRound x : ℚ) := by
  have h := Int.lt_floor_add_one (x + 1/2)
  unfold jsRound
  linarith

theorem jsRound_nonneg {x : ℚ} (h : 0 ≤ x) : 0 ≤ jsRound x := by
  unfold jsRound
  exact Int.le_floor.mpr (by push_cast; linarith)

theorem jsRound_le_of_le {x : ℚ} {n : ℕ} (h : x ≤ n) : jsRound x ≤ n := by
  unfold jsRound
  rw [Int.floor_le_iff]
  push_cast
  linarith

theorem jsMod_nonneg {a b : ℚ} (ha : 0 ≤ a) (hb : 0 < b) : 0 ≤ jsMod a b := by
  unfold jsMod jsTrunc
  have hd : 0 ≤ a / b := div_nonneg ha hb.le
  rw [if_pos hd]
  have h1 : (⌊a / b⌋ : ℚ) ≤ a / b := Int.floor_le _
  have h2 : b * (⌊a / b⌋ : ℚ) ≤ b * (a / b) := by
    exact mul_le_mul_of_nonneg_left h1 hb.le
  rw [mul_div_cancel₀ a hb.ne'] at h2
  linarith

theorem jsMod_lt {a b : ℚ} (ha : 0 ≤ a) (hb : 0 < b) : jsMod a b < b := by
  unfold jsMod jsTrunc
  have hd : 0 ≤ a / b := div_nonneg ha hb.le
  rw [if_pos hd]
  have h1 : a / b - 1 < (⌊a / b⌋ : ℚ) := Int.sub_one_lt_floor _
  have h2 : b * (a / b - 1) < b * (⌊a / b⌋ : ℚ) := by
    exact mul_lt_mul_of_pos_left h1 hb
  rw [mul_sub, mul_div_cancel₀ a hb.ne'] at h2
  linarith

/-! ### Hex digit and parsing lemmas -/

theorem hexDigitVal_lt {c : Char} (h : isHexDigitChar c = true) :
    hexDigitVal c < 16 := by
  unfold isHexDigitChar at h
  unfold hexDigitVal
  simp only [Bool.or_eq_true, Bool.and_eq_true, decide_eq_true_eq] at h
  rcases h with (⟨h1, h2⟩ | ⟨h1, h2⟩) | ⟨h1, h2⟩ <;> split_ifs <;> omega

theorem hexPairVal_le {c1 c2 : Char} (h1 : isHexDigitChar c1 = true)
    (h2 : isHexDigitChar c2 = true) : hexPairVal c1 c2 ≤ 255 := by
  have a1 := hexDigitVal_lt h1
  have a2 := hexDigitVal_lt h2
  unfold hexPairVal
  omega

theorem hexDigitVal_hexDigitChar {m : ℕ} (h : m < 16) :
    hexDigitVal (hexDigitChar m) = m := by
  interval_cases m <;> decide

theorem isHexDigitChar_hexDigitChar {m : ℕ} (h : m < 16) :
    isHexDigitChar (hexDigitChar m) = true := by
  interval_cases m <;> decide

theorem isLowerHexDigit_hexDigitChar {m : ℕ} (h : m < 16) :
    isLowerHexDigit (hexDigitChar m) = true := by
  interval_cases m <;> decide

theorem hexDigitChar_toLower {c : Char} (h : isHexDigitChar c = true) :
    hexDigitChar (hexDigitVal c) = Char.toLower c := by
  unfold isHexDigitChar at h
  simp only [Bool.or_eq_true, Bool.and_eq_true, decide_eq_true_eq] at h
  have hc := Char.ofNat_toNat c
  rcases h with (⟨h1, h2⟩ | ⟨h1, h2⟩) | ⟨h1, h2⟩ <;>
    · rw [← hc]
      generalize hg : c.toNat = n at h1 h2 ⊢
      interval_cases n <;> decide

theorem clampRound_nonneg (x : ℚ) : 0 ≤ clampRound x :=
  jsRound_nonneg (le_max_left 0 _)

theorem clampRound_le (x : ℚ) : clampRound x ≤ 255 := by
  have : max 0 (min 255 x) ≤ ((255 : ℕ) : ℚ) := by
    push_cast
    exact max_le (by norm_num) (min_le_left _ _)
  exact jsRound_le_of_le this

theorem clampRound_intCast {n : ℤ} (h0 : 0 ≤ n) (h1 : n ≤ 255) :
    clampRound (n : ℚ) = n := by
  unfold clampRound
  have hmin : min 255 ((n : ℤ) : ℚ) = (n : ℚ) := by
    apply min_eq_right
    exact_mod_cast h1
  have hmax : max 0 ((n : ℤ) : ℚ) = (n : ℚ) := by
    apply max_eq_right
    exact_mod_cast h0
  rw [hmin, hmax, jsRound_intCast]

theorem rgbToHex_data (v : RGB) :
    (rgbToHex v).data =
      ['#', hexDigitChar ((clampRound v.r).toNat / 16),
        hexDigitChar ((clampRound v.r).toNat % 16),
        hexDigitChar ((clampRound v.g).toNat / 16),
        hexDigitChar ((clampRound v.g).toNat % 16),
        hexDigitChar ((clampRound v.b).toNat / 16),
        hexDigitChar ((clampRound v.b).toNat % 16)] := by
  simp [rgbToHex, byteHex, String.data_append]

theorem hexBody_rgbToHex (v : RGB) :
    hexBody (rgbToHex v) =
      [hexDigitChar ((clampRound v.r).toNat / 16),
        hexDigitChar ((clampRound v.r).toNat % 16),
        hexDigitChar ((clampRound v.g).toNat / 16),
        hexDigitChar ((clampRound v.g).toNat % 16),
        hexDigitChar ((clampRound v.b).toNat / 16),
        hexDigitChar ((clampRound v.b).toNat % 16)] := by
  unfold hexBody
  rw [rgbToHex_data]
  simp

theorem hexToRgb_eq_of_body {s : String} {c1 c2 c3 c4 c5 c6 : Char}
    (h : hexBody s = [c1, c2, c3, c4, c5, c6]) :
    hexToRgb s =
      if isHexDigitChar c1 && isHexDigitChar c2 && isHexDigitChar c3 &&
          isHexDigitChar c4 && isHexDigitChar c5 && isHexDigitChar c6 then
        .ok ⟨((hexPairVal c1 c2 : ℕ) : ℚ), ((hexPairVal c3 c4 : ℕ) : ℚ),
          ((hexPairVal c5 c6 : ℕ) : ℚ)⟩
      else .error ("Invalid hex color: " ++ s) := by
  unfold hexToRgb
  rw [h]

theorem hexPairVal_hexDigitChar {n : ℕ} (h : n ≤ 255) :
    hexPairVal (hexDigitChar (n / 16)) (hexDigitChar (n % 16)) = n := by
  unfold hexPairVal
  rw [hexDigitVal_hexDigitChar (by omega), hexDigitVal_hexDigitChar (by omega)]
  omega

theorem hexToRgb_rgbToHex (v : RGB) :
    hexToRgb (rgbToHex v) =
      .ok ⟨((clampRound v.r : ℤ) : ℚ), ((clampRound v.g : ℤ) : ℚ),
        ((clampRound v.b : ℤ) : ℚ)⟩ := by
  have br : (clampRound v.r).toNat ≤ 255 := by
    have := clampRound_le v.r
    omega
  have bg : (clampRound v.g).toNat ≤ 255 := by
    have := clampRound_le v.g
    omega
  have bb : (clampRound v.b).toNat ≤ 255 := by
    have := clampRound_le v.b
    omega
  rw [hexToRgb_eq_of_body (hexBody_rgbToHex v)]
  rw [if_pos]
  · have er : ((clampRound v.r).toNat : ℚ) = ((clampRound v.r : ℤ) : ℚ) := by
      exact_mod_cast congrArg (fun z : ℤ => (z : ℚ))
        (Int.toNat_of_nonneg (clampRound_nonneg v.r))
    have eg : ((clampRound v.g).toNat : ℚ) = ((clampRound v.g : ℤ) : ℚ) := by
      exact_mod_cast congrArg (fun z : ℤ => (z : ℚ))
        (Int.toNat_of_nonneg (clampRound_nonneg v.g))
    have eb : ((clampRound v.b).toNat : ℚ) = ((clampRound v.b : ℤ) : ℚ) := by
      exact_mod_cast congrArg (fun z : ℤ => (z : ℚ))
        (Int.toNat_of_nonneg (clampRound_nonneg v.b))
    rw [hexPairVal_hexDigitChar br, hexPairVal_hexDigitChar bg,
      hexPairVal_hexDigitChar bb, er, eg, eb]
  · rw [isHexDigitChar_hexDigitChar (by omega), isHexDigitChar_hexDigitChar (by omega),
      isHexDigitChar_hexDigitChar (by omega), isHexDigitChar_hexDigitChar (by omega),
      isHexDigitChar_hexDigitChar (by omega), isHexDigitChar_hexDigitChar (by omega)]
    rfl

theorem matchesLowerHexPattern_rgbToHex (v : RGB) :
    matchesLowerHexPattern (rgbToHex v) = true := by
  have br : (clampRound v.r).toNat ≤ 255 := by
    have := clampRound_le v.r
    omega
  have bg : (clampRound v.g).toNat ≤ 255 := by
    have := clampRound_le v.g
    omega
  have bb : (clampRound v.b).toNat ≤ 255 := by
    have := clampRound_le v.b
    omega
  unfold matchesLowerHexPattern
  rw [rgbToHex_data]
  simp only [List.all_cons, List.all_nil, List.length_cons, List.length_nil]
  rw [isLowerHexDigit_hexDigitChar (by omega), isLowerHexDigit_hexDigitChar (by omega),
    isLowerHexDigit_hexDigitChar (by omega), isLowerHexDigit_hexDigitChar (by omega),
    isLowerHexDigit_hexDigitChar (by omega), isLowerHexDigit_hexDigitChar (by omega)]
  rfl

theorem hexToRgb_ok_elim {s : String} {rgb : RGB} (h : hexToRgb s = .ok rgb) :
    ∃ c1 c2 c3 c4 c5 c6,
      hexBody s = [c1, c2, c3, c4, c5, c6] ∧
      isHexDigitChar c1 = true ∧ isHexDigitChar c2 = true ∧
      isHexDigitChar c3 = true ∧ isHexDigitChar c4 = true ∧
      isHexDigitChar c5 = true ∧ isHexDigitChar c6 = true ∧
      rgb = ⟨((hexPairVal c1 c2 : ℕ) : ℚ), ((hexPairVal c3 c4 : ℕ) : ℚ),
        ((hexPairVal c5 c6 : ℕ) : ℚ)⟩ := by
  unfold hexToRgb at h
  split at h
  case _ c1 c2 c3 c4 c5 c6 heq =>
    split_ifs at h with hx
    · simp only [Bool.and_eq_true] at hx
      obtain ⟨⟨⟨⟨⟨x1, x2⟩, x3⟩, x4⟩, x5⟩, x6⟩ := hx
      injection h with h
      exact ⟨c1, c2, c3, c4, c5, c6, heq, x1, x2, x3, x4, x5, x6, h.symm⟩
  case _ => cases h

theorem hexToRgb_channels {s : String} {rgb : RGB} (h : hexToRgb s = .ok rgb) :
    ∃ a b c : ℕ, rgb = ⟨(a : ℚ), (b : ℚ), (c : ℚ)⟩ ∧ a ≤ 255 ∧ b ≤ 255 ∧ c ≤ 255 := by
  obtain ⟨c1, c2, c3, c4, c5, c6, _, x1, x2, x3, x4, x5, x6, hv⟩ := hexToRgb_ok_elim h
  exact ⟨hexPairVal c1 c2, hexPairVal c3 c4, hexPairVal c5 c6, hv,
    hexPairVal_le x1 x2, hexPairVal_le x3 x4, hexPairVal_le x5 x6⟩

theorem canonicalSeed_data (s : String) :
    (canonicalSeed s).data = '#' :: hexBody s := by
  rcases hd : s.data with _ | ⟨c, rest⟩
  · have h1 : startsWithHash s = false := by
      unfold startsWithHash
      rw [hd]
    unfold canonicalSeed hexBody
    rw [h1, hd]
    simp [String.data_append, hd]
  · by_cases hc : c = '#'
    · subst hc
      have h1 : startsWithHash s = true := by
        unfold startsWithHash
        rw [hd]
        simp
      unfold canonicalSeed hexBody
      rw [h1, hd]
      simp [hd]
    · have h1 : startsWithHash s = false := by
        unfold startsWithHash
        rw [hd]
        simp [hc]
      unfold canonicalSeed hexBody
      rw [h1, hd]
      simp [String.data_append, hd, hc]

theorem hexBody_canonicalSeed (s : String) :
    hexBody (canonicalSeed s) = hexBody s := by
  unfold hexBody
  rw [canonicalSeed_data]
  simp
  rfl

theorem matchesHexPattern_canonicalSeed (s : String) :
    matchesHexPattern (canonicalSeed s) = matchesHexPattern s := by
  unfold matchesHexPattern
  rw [hexBody_canonicalSeed]

theorem canonicalSeed_cases (s : String) :
    canonicalSeed s = s ∨ canonicalSeed s = "#" ++ s := by
  unfold canonicalSeed
  split
  · exact Or.inl rfl
  · exact Or.inr rfl

theorem strContains_self (s : String) : strContains s s :=
  ⟨[], [], by simp⟩

theorem strContains_appendLeft {s pat : String} (t : String)
    (h : strContains s pat) : strContains (t ++ s) pat := by
  obtain ⟨u, v, huv⟩ := h
  refine ⟨t.data ++ u, v, ?_⟩
  rw [String.data_append, ← huv]
  simp [List.append_assoc]

theorem strContains_appendRight {s pat : String} (t : String)
    (h : strContains s pat) : strContains (s ++ t) pat := by
  obtain ⟨u, v, huv⟩ := h
  refine ⟨u, v ++ t.data, ?_⟩
  rw [String.data_append, ← huv]
  simp [List.append_assoc]

/-! ### Evaluation of `hue2rgb` by segment -/

theorem hue2rgb_base (p q t : ℚ) (h0 : 0 ≤ t) (h1 : t ≤ 1) :
    hue2rgb p q t =
      if t < 1/6 then p + (q - p) * 6 * t
      else if t < 1/2 then q
      else if t < 2/3 then p + (q - p) * (2/3 - t) * 6
      else p := by
  simp only [hue2rgb]
  rw [if_neg (by linarith : ¬ t < 0), if_neg (by linarith : ¬ t > 1)]

theorem hue2rgb_seg1 (p q t : ℚ) (h0 : 0 ≤ t) (h1 : t < 1/6) :
    hue2rgb p q t = p + (q - p) * 6 * t := by
  rw [hue2rgb_base p q t h0 (by linarith), if_pos h1]

theorem hue2rgb_seg2 (p q t : ℚ) (h0 : 1/6 ≤ t) (h1 : t < 1/2) :
    hue2rgb p q t = q := by
  rw [hue2rgb_base p q t (by linarith) (by linarith), if_neg (by linarith), if_pos h1]

theorem hue2rgb_seg3 (p q t : ℚ) (h0 : 1/2 ≤ t) (h1 : t < 2/3) :
    hue2rgb p q t = p + (q - p) * (2/3 - t) * 6 := by
  rw [hue2rgb_base p q t (by linarith) (by linarith), if_neg (by linarith),
    if_neg (by linarith), if_pos h1]

theorem hue2rgb_seg4 (p q t : ℚ) (h0 : 2/3 ≤ t) (h1 : t ≤ 1) :
    hue2rgb p q t = p := by
  rw [hue2rgb_base p q t (by linarith) h1, if_neg (by linarith),
    if_neg (by linarith), if_neg (by linarith)]

theorem hue2rgb_addOne (p q t : ℚ) (h1 : -1 ≤ t) (h2 : t < 0) :
    hue2rgb p q t = hue2rgb p q (t + 1) := by
  simp only [hue2rgb]
  rw [if_pos h2, if_neg (by linarith : ¬ t + 1 < 0),
    if_neg (by linarith : ¬ t + 1 > 1)]

theorem hue2rgb_subOne (p q t : ℚ) (h1 : 1 < t) (h2 : t ≤ 2) :
    hue2rgb p q t = hue2rgb p q (t - 1) := by
  simp only [hue2rgb]
  rw [if_neg (by linarith : ¬ t < 0), if_pos (by linarith : t > 1),
    if_neg (by linarith : ¬ t - 1 < 0), if_neg (by linarith : ¬ t - 1 > 1)]

/-! ### Bounds for the `hslToRgb` intermediates -/

theorem qOf_nonneg {s l : ℚ} (hs0 : 0 ≤ s) (hs1 : s ≤ 1) (hl0 : 0 ≤ l)
    (hl1 : l ≤ 1) : 0 ≤ qOf s l := by
  unfold qOf
  split_ifs with h <;>
    nlinarith [mul_nonneg hl0 hs0, mul_nonneg hs0 (sub_nonneg.mpr hl1)]

theorem qOf_le_one {s l : ℚ} (hs0 : 0 ≤ s) (hs1 : s ≤ 1) (hl0 : 0 ≤ l)
    (hl1 : l ≤ 1) : qOf s l ≤ 1 := by
  unfold qOf
  split_ifs with h <;>
    nlinarith [mul_nonneg hl0 (sub_nonneg.mpr hs1),
      mul_nonneg (sub_nonneg.mpr hs1) (sub_nonneg.mpr hl1)]

theorem le_qOf {s l : ℚ} (hs0 : 0 ≤ s) (hl0 : 0 ≤ l) (hl1 : l ≤ 1) :
    l ≤ qOf s l := by
  unfold qOf
  split_ifs with h <;>
    nlinarith [mul_nonneg hl0 hs0, mul_nonneg hs0 (sub_nonneg.mpr hl1)]

theorem qOf_le_twoMul {s l : ℚ} (hs1 : s ≤ 1) (hl0 : 0 ≤ l) (hl1 : l ≤ 1) :
    qOf s l ≤ 2 * l := by
  unfold qOf
  split_ifs with h <;>
    nlinarith [mul_nonneg hl0 (sub_nonneg.mpr hs1),
      mul_nonneg (sub_nonneg.mpr hs1) (sub_nonneg.mpr hl1)]

theorem hue2rgb_mem (p q t0 : ℚ) (hp0 : 0 ≤ p) (hq1 : q ≤ 1) (hpq : p ≤ q)
    (ht1 : -1/3 ≤ t0) (ht2 : t0 ≤ 4/3) :
    0 ≤ hue2rgb p q t0 ∧ hue2rgb p q t0 ≤ 1 := by
  rcases lt_or_le t0 0 with hneg | hnn
  · rw [hue2rgb_addOne p q t0 (by linarith) hneg,
      hue2rgb_base p q (t0 + 1) (by linarith) (by linarith)]
    split_ifs <;> constructor <;> nlinarith
  · rcases le_or_lt t0 1 with hle | hgt
    · rw [hue2rgb_base p q t0 hnn hle]
      split_ifs <;> constructor <;> nlinarith
    · rw [hue2rgb_subOne p q t0 hgt (by linarith),
        hue2rgb_base p q (t0 - 1) (by linarith) (by linarith)]
      split_ifs <;> constructor <;> nlinarith

/-- Sum of the three `hue2rgb` channel values: for every hue there is a
single interpolation weight `u ∈ [0,1]`, independent of `p` and `q`, with
channel sum `2p + q + (q-p)·u`. -/
theorem hue_triple_sum (h0 : ℚ) (hh0 : 0 ≤ h0) (hh1 : h0 < 1) :
    ∃ u, 0 ≤ u ∧ u ≤ 1 ∧ ∀ p q : ℚ,
      hue2rgb p q (h0 + 1/3) + hue2rgb p q h0 + hue2rgb p q (h0 - 1/3) =
        2*p + q + (q - p) * u := by
  rcases lt_or_le h0 (1/6) with hA | hA
  · refine ⟨6*h0, by linarith, by linarith, fun p q => ?_⟩
    rw [hue2rgb_seg2 p q (h0 + 1/3) (by linarith) (by linarith),
      hue2rgb_seg1 p q h0 hh0 hA,
      hue2rgb_addOne p q (h0 - 1/3) (by linarith) (by linarith),
      hue2rgb_seg4 p q (h0 - 1/3 + 1) (by linarith) (by linarith)]
    ring
  rcases lt_or_le h0 (1/3) with hB | hB
  · refine ⟨2 - 6*h0, by linarith, by linarith, fun p q => ?_⟩
    rw [hue2rgb_seg3 p q (h0 + 1/3) (by linarith) (by linarith),
      hue2rgb_seg2 p q h0 (by linarith) (by linarith),
      hue2rgb_addOne p q (h0 - 1/3) (by linarith) (by linarith),
      hue2rgb_seg4 p q (h0 - 1/3 + 1) (by linarith) (by linarith)]
    ring
  rcases lt_or_le h0 (1/2) with hC | hC
  · refine ⟨6*h0 - 2, by linarith, by linarith, fun p q => ?_⟩
    rw [hue2rgb_seg4 p q (h0 + 1/3) (by linarith) (by linarith),
      hue2rgb_seg2 p q h0 (by linarith) (by linarith),
      hue2rgb_seg1 p q (h0 - 1/3) (by linarith) (by linarith)]
    ring
  rcases lt_or_le h0 (2/3) with hD | hD
  · refine ⟨4 - 6*h0, by linarith, by linarith, fun p q => ?_⟩
    rw [hue2rgb_seg4 p q (h0 + 1/3) (by linarith) (by linarith),
      hue2rgb_seg3 p q h0 (by linarith) (by linarith),
      hue2rgb_seg2 p q (h0 - 1/3) (by linarith) (by linarith)]
    ring
  rcases lt_or_le h0 (5/6) with hE | hE
  · rcases eq_or_lt_of_le hD with heq | hlt
    · refine ⟨6*h0 - 4, by linarith, by linarith, fun p q => ?_⟩
      rw [← heq]
      rw [hue2rgb_seg4 p q (2/3 + 1/3) (by linarith) (by linarith),
        hue2rgb_seg4 p q (2/3 : ℚ) (by linarith) (by linarith),
        hue2rgb_seg2 p q (2/3 - 1/3 : ℚ) (by linarith) (by linarith)]
      ring
    · refine ⟨6*h0 - 4, by linarith, by linarith, fun p q => ?_⟩
      rw [hue2rgb_subOne p q (h0 + 1/3) (by linarith) (by linarith),
        hue2rgb_seg1 p q (h0 + 1/3 - 1) (by linarith) (by linarith),
        hue2rgb_seg4 p q h0 (by linarith) (by linarith),
        hue2rgb_seg2 p q (h0 - 1/3) (by linarith) (by linarith)]
      ring
  · refine ⟨6 - 6*h0, by linarith, by linarith, fun p q => ?_⟩
    rw [hue2rgb_subOne p q (h0 + 1/3) (by linarith) (by linarith),
      hue2rgb_seg2 p q (h0 + 1/3 - 1) (by linarith) (by linarith),
      hue2rgb_seg4 p q h0 (by linarith) (by linarith),
      hue2rgb_seg3 p q (h0 - 1/3) (by linarith) (by linarith)]
    ring

/-! ### Exact inversion of `rgbToHsl` by `hslToRgb` -/

set_option maxHeartbeats 1000000 in
theorem rgbToHsl_chromatic (rgb : RGB)
    (h0r : 0 ≤ rgb.r) (h1r : rgb.r ≤ 255) (h0g : 0 ≤ rgb.g) (h1g : rgb.g ≤ 255)
    (h0b : 0 ≤ rgb.b) (h1b : rgb.b ≤ 255)
    (hne : max (rgb.r/255) (max (rgb.g/255) (rgb.b/255)) ≠
      min (rgb.r/255) (min (rgb.g/255) (rgb.b/255))) :
    0 < (rgbToHsl rgb).s ∧ (rgbToHsl rgb).s ≤ 1 ∧
    (rgbToHsl rgb).l =
      (max (rgb.r/255) (max (rgb.g/255) (rgb.b/255)) +
        min (rgb.r/255) (min (rgb.g/255) (rgb.b/255))) / 2 ∧
    0 ≤ (rgbToHsl rgb).h ∧ (rgbToHsl rgb).h < 360 ∧
    qOf (rgbToHsl rgb).s (rgbToHsl rgb).l =
      max (rgb.r/255) (max (rgb.g/255) (rgb.b/255)) ∧
    hue2rgb (2 * (rgbToHsl rgb).l - qOf (rgbToHsl rgb).s (rgbToHsl rgb).l)
      (qOf (rgbToHsl rgb).s (rgbToHsl rgb).l) ((rgbToHsl rgb).h / 360 + 1/3) =
      rgb.r / 255 ∧
    hue2rgb (2 * (rgbToHsl rgb).l - qOf (rgbToHsl rgb).s (rgbToHsl rgb).l)
      (qOf (rgbToHsl rgb).s (rgbToHsl rgb).l) ((rgbToHsl rgb).h / 360) =
      rgb.g / 255 ∧
    hue2rgb (2 * (rgbToHsl rgb).l - qOf (rgbToHsl rgb).s (rgbToHsl rgb).l)
      (qOf (rgbToHsl rgb).s (rgbToHsl rgb).l) ((rgbToHsl rgb).h / 360 - 1/3) =
      rgb.b / 255 := by
  have hR0 : 0 ≤ rgb.r / 255 := by positivity
  have hG0 : 0 ≤ rgb.g / 255 := by positivity
  have hB0 : 0 ≤ rgb.b / 255 := by positivity
  have hR1 : rgb.r / 255 ≤ 1 := by rw [div_le_one] <;> linarith
  have hG1 : rgb.g / 255 ≤ 1 := by rw [div_le_one] <;> linarith
  have hB1 : rgb.b / 255 ≤ 1 := by rw [div_le_one] <;> linarith
  set R := rgb.r / 255 with hRdef
  set G := rgb.g / 255 with hGdef
  set B := rgb.b / 255 with hBdef
  set mx := max R (max G B) with hmxdef
  set mn := min R (min G B) with hmndef
  have hRmx : R ≤ mx := le_max_left _ _
  have hGmx : G ≤ mx := le_trans (le_max_left _ _) (le_max_right _ _)
  have hBmx : B ≤ mx := le_trans (le_max_right _ _) (le_max_right _ _)
  have hmnR : mn ≤ R := min_le_left _ _
  have hmnG : mn ≤ G := le_trans (min_le_right _ _) (min_le_left _ _)
  have hmnB : mn ≤ B := le_trans (min_le_right _ _) (min_le_right _ _)
  have hmn0 : 0 ≤ mn := le_min hR0 (le_min hG0 hB0)
  have hmx1 : mx ≤ 1 := max_le hR1 (max_le hG1 hB1)
  have hlt : mn < mx := by
    rcases lt_or_eq_of_le (le_trans hmnR hRmx) with h | h
    · exact h
    · exact absurd h.symm hne
  have hd_pos : (0:ℚ) < mx - mn := by linarith
  have hden1 : (0:ℚ) < mx + mn := by
    have : 0 < mx := lt_of_le_of_lt hmn0 hlt
    linarith
  have hden2 : (0:ℚ) < 2 - mx - mn := by
    have : mn < 1 := lt_of_lt_of_le hlt hmx1
    linarith
  -- the if-free description of the chromatic branch
  have hsl_eq : rgbToHsl rgb =
      ⟨(if mx = R then ((G - B) / (mx - mn) + if G < B then 6 else 0) / 6
        else if mx = G then ((B - R) / (mx - mn) + 2) / 6
        else ((R - G) / (mx - mn) + 4) / 6) * 360,
        if (mx + mn) / 2 > 1/2 then (mx - mn) / (2 - mx - mn)
        else (mx - mn) / (mx + mn),
        (mx + mn) / 2⟩ := by
    simp only [rgbToHsl, ← hRdef, ← hGdef, ← hBdef, ← hmxdef, ← hmndef]
    rw [if_neg (by exact fun h => hne h)]
  rw [hsl_eq]
  dsimp only
  -- saturation facts
  have hS_pos : 0 < (if (mx + mn) / 2 > 1/2 then (mx - mn) / (2 - mx - mn)
      else (mx - mn) / (mx + mn)) := by
    split_ifs with hc
    · exact div_pos hd_pos hden2
    · exact div_pos hd_pos hden1
  have hS1 : (if (mx + mn) / 2 > 1/2 then (mx - mn) / (2 - mx - mn)
      else (mx - mn) / (mx + mn)) ≤ 1 := by
    split_ifs with hc
    · rw [div_le_one hden2]
      linarith
    · rw [div_le_one hden1]
      linarith
  have hq : qOf (if (mx + mn) / 2 > 1/2 then (mx - mn) / (2 - mx - mn)
      else (mx - mn) / (mx + mn)) ((mx + mn) / 2) = mx := by
    unfold qOf
    rcases lt_trichotomy (mx + mn) 1 with hc | hc | hc
    · rw [if_neg (by linarith : ¬ (mx + mn) / 2 > 1/2), if_pos (by linarith)]
      field_simp
      ring
    · rw [if_neg (by linarith : ¬ (mx + mn) / 2 > 1/2),
        if_neg (by linarith : ¬ (mx + mn) / 2 < 1/2)]
      have hmn_eq : mn = 1 - mx := by linarith
      rw [hmn_eq]
      field_simp
      ring
    · rw [if_pos (by linarith : (mx + mn) / 2 > 1/2),
        if_neg (by linarith : ¬ (mx + mn) / 2 < 1/2)]
      field_simp
      ring
  rw [hq]
  have hPmn : 2 * ((mx + mn) / 2) - mx = mn := by ring
  rw [hPmn]
  have h360 :
      (if mx = R then ((G - B) / (mx - mn) + if G < B then 6 else 0) / 6
        else if mx = G then ((B - R) / (mx - mn) + 2) / 6
        else ((R - G) / (mx - mn) + 4) / 6) * 360 / 360 =
      (if mx = R then ((G - B) / (mx - mn) + if G < B then 6 else 0) / 6
        else if mx = G then ((B - R) / (mx - mn) + 2) / 6
        else ((R - G) / (mx - mn) + 4) / 6) :=
    mul_div_cancel_right₀ _ (by norm_num)
  rw [h360]
  refine ⟨hS_pos, hS1, rfl, ?_⟩
  -- hue analysis
  by_cases hxR : mx = R
  · rw [if_pos hxR]
    by_cases hGB : G < B
    · -- red max, blue above green: hue in [5/6, 1)
      rw [if_pos hGB]
      have hBR : B ≤ R := hxR ▸ hBmx
      have hmnG2 : mn = G := by
        rw [hmndef, min_eq_left hGB.le, min_eq_right (le_of_lt (lt_of_lt_of_le hGB hBR))]
      set k := (G - B) / (mx - mn) with hkdef
      have hkd : k * (mx - mn) = G - B := div_mul_cancel₀ _ hd_pos.ne'
      have hk1 : -1 ≤ k := by
        rw [hkdef, le_div_iff₀ hd_pos]
        have h1 : mn ≤ B := hmnB
        linarith [hxR ▸ hBmx, hmnG2 ▸ (le_refl G)]
      have hk0 : k < 0 := div_neg_of_neg_of_pos (by linarith) hd_pos
      refine ⟨by linarith, by linarith, rfl, ?_, ?_, ?_⟩
      · -- red channel
        rw [hue2rgb_subOne mn mx ((k + 6) / 6 + 1/3) (by linarith) (by linarith),
          hue2rgb_seg2 mn mx ((k + 6) / 6 + 1/3 - 1) (by linarith) (by linarith)]
        exact hxR
      · -- green channel
        rw [hue2rgb_seg4 mn mx ((k + 6) / 6) (by linarith) (by linarith)]
        exact hmnG2
      · -- blue channel
        rw [hue2rgb_seg3 mn mx ((k + 6) / 6 - 1/3) (by linarith) (by linarith)]
        linear_combination hmnG2 - hkd
    · -- red max, green at or above blue: hue in [0, 1/6]
      rw [if_neg hGB, add_zero]
      have hBG : B ≤ G := le_of_not_lt hGB
      have hGR : G ≤ R := hxR ▸ hGmx
      have hmnB2 : mn = B := by
        rw [hmndef, min_eq_right hBG, min_eq_right (le_trans hBG hGR)]
      set k := (G - B) / (mx - mn) with hkdef
      have hkd : k * (mx - mn) = G - B := div_mul_cancel₀ _ hd_pos.ne'
      have hk0 : 0 ≤ k := div_nonneg (by linarith) hd_pos.le
      have hk1 : k ≤ 1 := by
        rw [hkdef, div_le_one hd_pos]
        linarith [hmnB2 ▸ (le_refl B), hxR ▸ hGmx]
      refine ⟨by linarith, by linarith, rfl, ?_, ?_, ?_⟩
      · -- red channel
        rcases eq_or_lt_of_le hk1 with heq | hlt
        · rw [hue2rgb_seg3 mn mx (k / 6 + 1/3) (by linarith) (by linarith)]
          linear_combination (mn - mx) * heq + hxR
        · rw [hue2rgb_seg2 mn mx (k / 6 + 1/3) (by linarith) (by linarith)]
          exact hxR
      · -- green channel
        rcases eq_or_lt_of_le hk1 with heq | hlt
        · rw [hue2rgb_seg2 mn mx (k / 6) (by linarith) (by linarith)]
          have hGB2 : G - B = mx - mn := by rw [← hkd, heq, one_mul]
          linarith [hmnB2]
        · rw [hue2rgb_seg1 mn mx (k / 6) (by linarith) (by linarith)]
          linear_combination hkd + hmnB2
      · -- blue channel
        rw [hue2rgb_addOne mn mx (k / 6 - 1/3) (by linarith) (by linarith),
          hue2rgb_seg4 mn mx (k / 6 - 1/3 + 1) (by linarith) (by linarith)]
        exact hmnB2
  · rw [if_neg hxR]
    have hRlt : R < mx := lt_of_le_of_ne hRmx (fun h => hxR h.symm)
    by_cases hxG : mx = G
    · rw [if_pos hxG]
      have hBG : B ≤ G := hxG ▸ hBmx
      have hminGB : min G B = B := min_eq_right hBG
      set k := (B - R) / (mx - mn) with hkdef
      have hkd : k * (mx - mn) = B - R := div_mul_cancel₀ _ hd_pos.ne'
      have hkm1 : -1 < k := by
        rw [hkdef, lt_div_iff₀ hd_pos]
        linarith [hmnB]
      have hk1 : k ≤ 1 := by
        rw [hkdef, div_le_one hd_pos]
        linarith [hBmx, hmnR]
      rcases lt_trichotomy B R with hBR | hBR | hBR
      · -- hue in (1/6, 1/3)
        have hmnB2 : mn = B := by
          rw [hmndef, hminGB, min_eq_right hBR.le]
        have hkneg : k < 0 := div_neg_of_neg_of_pos (by linarith) hd_pos
        refine ⟨by linarith, by linarith, rfl, ?_, ?_, ?_⟩
        · rw [hue2rgb_seg3 mn mx ((k + 2) / 6 + 1/3) (by linarith) (by linarith)]
          linear_combination hmnB2 - hkd
        · rw [hue2rgb_seg2 mn mx ((k + 2) / 6) (by linarith) (by linarith)]
          exact hxG
        · rw [hue2rgb_addOne mn mx ((k + 2) / 6 - 1/3) (by linarith) (by linarith),
            hue2rgb_seg4 mn mx ((k + 2) / 6 - 1/3 + 1) (by linarith) (by linarith)]
          exact hmnB2
      · -- hue exactly 1/3
        have hmnR2 : mn = R := by
          rw [hmndef, hminGB, hBR, min_self]
        have hk : k = 0 := by
          rw [hkdef, hBR, sub_self, zero_div]
        refine ⟨by linarith, by linarith, rfl, ?_, ?_, ?_⟩
        · rw [hue2rgb_seg4 mn mx ((k + 2) / 6 + 1/3) (by linarith) (by linarith)]
          exact hmnR2
        · rw [hue2rgb_seg2 mn mx ((k + 2) / 6) (by linarith) (by linarith)]
          exact hxG
        · rw [hue2rgb_seg1 mn mx ((k + 2) / 6 - 1/3) (by linarith) (by linarith)]
          linear_combination hkd + hmnR2
      · -- hue in (1/3, 1/2]
        have hmnR2 : mn = R := by
          rw [hmndef, hminGB, min_eq_left hBR.le]
        have hkpos : 0 < k := div_pos (by linarith) hd_pos
        refine ⟨by linarith, by linarith, rfl, ?_, ?_, ?_⟩
        · rw [hue2rgb_seg4 mn mx ((k + 2) / 6 + 1/3) (by linarith) (by linarith)]
          exact hmnR2
        · rcases eq_or_lt_of_le hk1 with heq | hlt
          · rw [hue2rgb_seg3 mn mx ((k + 2) / 6) (by linarith) (by linarith)]
            linear_combination (mn - mx) * heq + hxG
          · rw [hue2rgb_seg2 mn mx ((k + 2) / 6) (by linarith) (by linarith)]
            exact hxG
        · rcases eq_or_lt_of_le hk1 with heq | hlt
          · rw [hue2rgb_seg2 mn mx ((k + 2) / 6 - 1/3) (by linarith) (by linarith)]
            have hBR2 : B - R = mx - mn := by rw [← hkd, heq, one_mul]
            linarith [hmnR2]
          · rw [hue2rgb_seg1 mn mx ((k + 2) / 6 - 1/3) (by linarith) (by linarith)]
            linear_combination hkd + hmnR2
    · -- blue is the maximum
      rw [if_neg hxG]
      have hxB : mx = B := by
        rcases max_choice R (max G B) with h | h
        · exact absurd h hxR
        · rcases max_choice G B with h2 | h2
          · exact absurd (h.trans h2) hxG
          · exact h.trans h2
      have hGlt : G < mx := lt_of_le_of_ne hGmx (fun h => hxG h.symm)
      have hminGB : min G B = G := min_eq_left (hxB ▸ hGmx)
      set k := (R - G) / (mx - mn) with hkdef
      have hkd : k * (mx - mn) = R - G := div_mul_cancel₀ _ hd_pos.ne'
      have hkm1 : -1 < k := by
        rw [hkdef, lt_div_iff₀ hd_pos]
        linarith [hmnR]
      have hk1 : k < 1 := by
        rw [hkdef, div_lt_one hd_pos]
        linarith [hmnG]
      rcases lt_trichotomy R G with hRG | hRG | hRG
      · -- hue in (1/2, 2/3)
        have hmnR2 : mn = R := by
          rw [hmndef, hminGB, min_eq_left hRG.le]
        have hkneg : k < 0 := div_neg_of_neg_of_pos (by linarith) hd_pos
        refine ⟨by linarith, by linarith, rfl, ?_, ?_, ?_⟩
        · rw [hue2rgb_seg4 mn mx ((k + 4) / 6 + 1/3) (by linarith) (by linarith)]
          exact hmnR2
        · rw [hue2rgb_seg3 mn mx ((k + 4) / 6) (by linarith) (by linarith)]
          linear_combination hmnR2 - hkd
        · rw [hue2rgb_seg2 mn mx ((k + 4) / 6 - 1/3) (by linarith) (by linarith)]
          exact hxB
      · -- hue exactly 2/3
        have hmnR2 : mn = R := by
          rw [hmndef, hminGB, hRG, min_self]
        have hk : k = 0 := by
          rw [hkdef, hRG, sub_self, zero_div]
        refine ⟨by linarith, by linarith, rfl, ?_, ?_, ?_⟩
        · rw [hue2rgb_seg4 mn mx ((k + 4) / 6 + 1/3) (by linarith) (by linarith)]
          exact hmnR2
        · rw [hue2rgb_seg4 mn mx ((k + 4) / 6) (by linarith) (by linarith)]
          linear_combination hmnR2 + hRG
        · rw [hue2rgb_seg2 mn mx ((k + 4) / 6 - 1/3) (by linarith) (by linarith)]
          exact hxB
      · -- hue in (2/3, 5/6)
        have hmnG2 : mn = G := by
          rw [hmndef, hminGB, min_eq_right hRG.le]
        have hkpos : 0 < k := div_pos (by linarith) hd_pos
        refine ⟨by linarith, by linarith, rfl, ?_, ?_, ?_⟩
        · rw [hue2rgb_subOne mn mx ((k + 4) / 6 + 1/3) (by linarith) (by linarith),
            hue2rgb_seg1 mn mx ((k + 4) / 6 + 1/3 - 1) (by linarith) (by linarith)]
          linear_combination hkd + hmnG2
        · rw [hue2rgb_seg4 mn mx ((k + 4) / 6) (by linarith) (by linarith)]
          exact hmnG2
        · rw [hue2rgb_seg2 mn mx ((k + 4) / 6 - 1/3) (by linarith) (by linarith)]
          exact hxB

theorem rgbToHsl_achromatic (rgb : RGB)
    (heq : max (rgb.r/255) (max (rgb.g/255) (rgb.b/255)) =
      min (rgb.r/255) (min (rgb.g/255) (rgb.b/255))) :
    rgbToHsl rgb = ⟨0, 0, rgb.r / 255⟩ ∧ rgb.g = rgb.r ∧ rgb.b = rgb.r := by
  have hRmx : rgb.r/255 ≤ max (rgb.r/255) (max (rgb.g/255) (rgb.b/255)) :=
    le_max_left _ _
  have hGmx : rgb.g/255 ≤ max (rgb.r/255) (max (rgb.g/255) (rgb.b/255)) :=
    le_trans (le_max_left _ _) (le_max_right _ _)
  have hBmx : rgb.b/255 ≤ max (rgb.r/255) (max (rgb.g/255) (rgb.b/255)) :=
    le_trans (le_max_right _ _) (le_max_right _ _)
  have hmnR : min (rgb.r/255) (min (rgb.g/255) (rgb.b/255)) ≤ rgb.r/255 :=
    min_le_left _ _
  have hmnG : min (rgb.r/255) (min (rgb.g/255) (rgb.b/255)) ≤ rgb.g/255 :=
    le_trans (min_le_right _ _) (min_le_left _ _)
  have hmnB : min (rgb.r/255) (min (rgb.g/255) (rgb.b/255)) ≤ rgb.b/255 :=
    le_trans (min_le_right _ _) (min_le_right _ _)
  have hRG : rgb.g = rgb.r := by
    have h1 : rgb.g/255 ≤ rgb.r/255 := le_trans hGmx (heq ▸ hmnR)
    have h2 : rgb.r/255 ≤ rgb.g/255 := le_trans hRmx (heq ▸ hmnG)
    have := le_antisymm h1 h2
    field_simp at this
    linarith
  have hRB : rgb.b = rgb.r := by
    have h1 : rgb.b/255 ≤ rgb.r/255 := le_trans hBmx (heq ▸ hmnR)
    have h2 : rgb.r/255 ≤ rgb.b/255 := le_trans hRmx (heq ▸ hmnB)
    have := le_antisymm h1 h2
    field_simp at this
    linarith
  refine ⟨?_, hRG, hRB⟩
  have hl : (max (rgb.r/255) (max (rgb.g/255) (rgb.b/255)) +
      min (rgb.r/255) (min (rgb.g/255) (rgb.b/255))) / 2 = rgb.r / 255 := by
    rw [hRG, hRB]
    simp
  simp only [rgbToHsl]
  rw [if_pos heq, hl]

theorem hslToRgb_rgbToHsl (rgb : RGB)
    (h0r : 0 ≤ rgb.r) (h1r : rgb.r ≤ 255) (h0g : 0 ≤ rgb.g) (h1g : rgb.g ≤ 255)
    (h0b : 0 ≤ rgb.b) (h1b : rgb.b ≤ 255) :
    hslToRgb (rgbToHsl rgb) =
      ⟨(jsRound rgb.r : ℚ), (jsRound rgb.g : ℚ), (jsRound rgb.b : ℚ)⟩ := by
  have h255 : (255 : ℚ) ≠ 0 := by norm_num
  by_cases hc : max (rgb.r/255) (max (rgb.g/255) (rgb.b/255)) =
      min (rgb.r/255) (min (rgb.g/255) (rgb.b/255))
  · obtain ⟨hhsl, hgr, hbr⟩ := rgbToHsl_achromatic rgb hc
    rw [hhsl]
    simp only [hslToRgb]
    rw [div_mul_cancel₀ rgb.r h255, hgr, hbr, if_pos trivial]
  · obtain ⟨hS_pos, hS1, hl, hh0, hh360, hq, hch1, hch2, hch3⟩ :=
      rgbToHsl_chromatic rgb h0r h1r h0g h1g h0b h1b hc
    simp only [hslToRgb]
    rw [if_neg (ne_of_gt hS_pos), hch1, hch2, hch3,
      div_mul_cancel₀ rgb.r h255, div_mul_cancel₀ rgb.g h255,
      div_mul_cancel₀ rgb.b h255]

theorem hslToRgb_rgbToHsl_exact {s : String} {rgb : RGB}
    (h : hexToRgb s = .ok rgb) : hslToRgb (rgbToHsl rgb) = rgb := by
  obtain ⟨a, b, c, hv, ha, hb, hc⟩ := hexToRgb_channels h
  subst hv
  have ba : ((a : ℕ) : ℚ) ≤ 255 := by exact_mod_cast ha
  have bb : ((b : ℕ) : ℚ) ≤ 255 := by exact_mod_cast hb
  have bc : ((c : ℕ) : ℚ) ≤ 255 := by exact_mod_cast hc
  rw [hslToRgb_rgbToHsl _ (by positivity) ba (by positivity) bb (by positivity) bc]
  rw [jsRound_natCast, jsRound_natCast, jsRound_natCast]
  push_cast
  rfl

/-! ### Equations for the derived-color operations -/

theorem lighten_ok {hex : String} {rgb : RGB} (p : ℚ)
    (h : hexToRgb hex = .ok rgb) :
    lighten hex p = .ok (rgbToHex (hslToRgb
      { rgbToHsl rgb with l := min 1 ((rgbToHsl rgb).l + p) })) := by
  unfold lighten
  rw [h]
  rfl

theorem darken_ok {hex : String} {rgb : RGB} (p : ℚ)
    (h : hexToRgb hex = .ok rgb) :
    darken hex p = .ok (rgbToHex (hslToRgb
      { rgbToHsl rgb with l := max 0 ((rgbToHsl rgb).l - p) })) := by
  unfold darken
  rw [h]
  rfl

theorem saturate_ok {hex : String} {rgb : RGB} (p : ℚ)
    (h : hexToRgb hex = .ok rgb) :
    saturate hex p = .ok (rgbToHex (hslToRgb
      { rgbToHsl rgb with s := min 1 ((rgbToHsl rgb).s + p) })) := by
  unfold saturate
  rw [h]
  rfl

theorem shiftHue_ok {hex : String} {rgb : RGB} (degrees : ℚ)
    (h : hexToRgb hex = .ok rgb) :
    shiftHue hex degrees = .ok (rgbToHex (hslToRgb
      { rgbToHsl rgb with
        h := jsMod ((rgbToHsl rgb).h + degrees + 360) 360 })) := by
  unfold shiftHue
  rw [h]
  rfl

theorem hexToRgba_ok {hex : String} {rgb : RGB} (alpha : ℚ)
    (h : hexToRgb hex = .ok rgb) :
    hexToRgba hex alpha = .ok (rgbaString rgb alpha) := by
  unfold hexToRgba
  rw [h]
  rfl

theorem generateColorScheme_ok {seed : String} {rgb : RGB}
    (h : hexToRgb (canonicalSeed seed) = .ok rgb) :
    generateColorScheme seed = .ok (schemeOf (canonicalSeed seed) rgb) := by
  simp only [generateColorScheme]
  rw [h, lighten_ok (15/100) h, darken_ok (12/100) h, darken_ok (15/100) h,
    hexToRgba_ok (4/10) h, hexToRgba_ok (35/100) h]
  simp only [okBind]
  rw [hexToRgba_ok (3/10) (hexToRgb_rgbToHex (hslToRgb
    (⟨180 + jsMod (rgbToHsl rgb).h 30, min 1 ((rgbToHsl rgb).s * (11/10)),
      min (85/100) ((rgbToHsl rgb).l + 1/10)⟩ : HSL)))]
  rfl

/-! ### Bounds for `rgbToHsl` and `hslToRgb` -/

theorem rgbToHsl_bounds (rgb : RGB)
    (h0r : 0 ≤ rgb.r) (h1r : rgb.r ≤ 255) (h0g : 0 ≤ rgb.g) (h1g : rgb.g ≤ 255)
    (h0b : 0 ≤ rgb.b) (h1b : rgb.b ≤ 255) :
    0 ≤ (rgbToHsl rgb).h ∧ (rgbToHsl rgb).h < 360 ∧ 0 ≤ (rgbToHsl rgb).s ∧
      (rgbToHsl rgb).s ≤ 1 ∧ 0 ≤ (rgbToHsl rgb).l ∧ (rgbToHsl rgb).l ≤ 1 := by
  by_cases hc : max (rgb.r/255) (max (rgb.g/255) (rgb.b/255)) =
      min (rgb.r/255) (min (rgb.g/255) (rgb.b/255))
  · obtain ⟨hhsl, _, _⟩ := rgbToHsl_achromatic rgb hc
    rw [hhsl]
    refine ⟨le_refl 0, by norm_num, le_refl 0, by norm_num, by positivity, ?_⟩
    show rgb.r / 255 ≤ 1
    rw [div_le_one (by norm_num : (0:ℚ) < 255)]
    exact h1r
  · obtain ⟨hS_pos, hS1, hl, hh0, hh360, _, _, _, _⟩ :=
      rgbToHsl_chromatic rgb h0r h1r h0g h1g h0b h1b hc
    refine ⟨hh0, hh360, le_of_lt hS_pos, hS1, ?_, ?_⟩
    · rw [hl]
      have : (0:ℚ) ≤ min (rgb.r/255) (min (rgb.g/255) (rgb.b/255)) :=
        le_min (by positivity) (le_min (by positivity) (by positivity))
      have h2 : (0:ℚ) ≤ max (rgb.r/255) (max (rgb.g/255) (rgb.b/255)) :=
        le_trans (by positivity) (le_max_left _ _)
      linarith
    · rw [hl]
      have h1 : max (rgb.r/255) (max (rgb.g/255) (rgb.b/255)) ≤ 1 := by
        refine max_le ?_ (max_le ?_ ?_) <;>
          rw [div_le_one (by norm_num : (0:ℚ) < 255)] <;> assumption
      have h2 : min (rgb.r/255) (min (rgb.g/255) (rgb.b/255)) ≤ 1 :=
        le_trans (min_le_left _ _) (by
          rw [div_le_one (by norm_num : (0:ℚ) < 255)]
          exact h1r)
      linarith

theorem hue2rgb_const (c t0 : ℚ) (ht1 : -1/3 ≤ t0) (ht2 : t0 ≤ 4/3) :
    hue2rgb c c t0 = c := by
  rcases lt_or_le t0 0 with hneg | hnn
  · rw [hue2rgb_addOne c c t0 (by linarith) hneg,
      hue2rgb_base c c (t0 + 1) (by linarith) (by linarith)]
    split_ifs <;> ring
  · rcases le_or_lt t0 1 with hle | hgt
    · rw [hue2rgb_base c c t0 hnn hle]
      split_ifs <;> ring
    · rw [hue2rgb_subOne c c t0 hgt (by linarith),
        hue2rgb_base c c (t0 - 1) (by linarith) (by linarith)]
      split_ifs <;> ring

/-- The per-lightness channel-sum expression `2p + q + (q-p)·u` grows at
rate at least `2` in the lightness, for any fixed saturation and
interpolation weight. -/
theorem sum_mono (s u l₁ l₂ : ℚ) (hs0 : 0 ≤ s) (hs1 : s ≤ 1)
    (hu0 : 0 ≤ u) (hu1 : u ≤ 1) (h12 : l₁ ≤ l₂) (hl10 : 0 ≤ l₁) (hl21 : l₂ ≤ 1) :
    2 * (l₂ - l₁) ≤
      (2*(2*l₂ - qOf s l₂) + qOf s l₂ + (qOf s l₂ - (2*l₂ - qOf s l₂)) * u) -
      (2*(2*l₁ - qOf s l₁) + qOf s l₁ + (qOf s l₁ - (2*l₁ - qOf s l₁)) * u) := by
  have hlo : (1 - s) * (l₂ - l₁) ≤ qOf s l₂ - qOf s l₁ := by
    unfold qOf
    split_ifs with ha hb hb
    · nlinarith [mul_nonneg hs0 (sub_nonneg.mpr h12)]
    · linarith
    · nlinarith [mul_nonneg hs0 (by linarith : (0:ℚ) ≤ 1 - 2*l₁)]
    · nlinarith [mul_nonneg hs0 (sub_nonneg.mpr h12)]
  have hhi : qOf s l₂ - qOf s l₁ ≤ (1 + s) * (l₂ - l₁) := by
    unfold qOf
    split_ifs with ha hb hb
    · nlinarith [mul_nonneg hs0 (sub_nonneg.mpr h12)]
    · linarith
    · nlinarith [mul_nonneg hs0 (by linarith : (0:ℚ) ≤ 2*l₂ - 1)]
    · nlinarith [mul_nonneg hs0 (sub_nonneg.mpr h12)]
  rcases le_or_lt u (1/2) with hu | hu
  · have key : (2*u - 1) * ((1 + s) * (l₂ - l₁)) ≤ (2*u - 1) * (qOf s l₂ - qOf s l₁) := by
      apply mul_le_mul_of_nonpos_left hhi
      linarith
    nlinarith [mul_nonneg hs0 (sub_nonneg.mpr h12),
      mul_nonneg (mul_nonneg hs0 hu0) (sub_nonneg.mpr h12)]
  · have key : (2*u - 1) * ((1 - s) * (l₂ - l₁)) ≤ (2*u - 1) * (qOf s l₂ - qOf s l₁) := by
      apply mul_le_mul_of_nonneg_left hlo
      linarith
    nlinarith [mul_nonneg (sub_nonneg.mpr h12) (sub_nonneg.mpr hs1),
      mul_nonneg (mul_nonneg hs0 hu0) (sub_nonneg.mpr h12),
      mul_nonneg (sub_nonneg.mpr hu1) (sub_nonneg.mpr h12)]

theorem hslToRgb_chromatic_eq (hsl : HSL) (hs : ¬ hsl.s = 0) :
    hslToRgb hsl =
      ⟨(jsRound (hue2rgb (2 * hsl.l - qOf hsl.s hsl.l) (qOf hsl.s hsl.l)
          (hsl.h / 360 + 1/3) * 255) : ℚ),
        (jsRound (hue2rgb (2 * hsl.l - qOf hsl.s hsl.l) (qOf hsl.s hsl.l)
          (hsl.h / 360) * 255) : ℚ),
        (jsRound (hue2rgb (2 * hsl.l - qOf hsl.s hsl.l) (qOf hsl.s hsl.l)
          (hsl.h / 360 - 1/3) * 255) : ℚ)⟩ := by
  simp only [hslToRgb]
  rw [if_neg hs]

theorem hslToRgb_achromatic_eq (hsl : HSL) (hs : hsl.s = 0) :
    hslToRgb hsl =
      ⟨(jsRound (hsl.l * 255) : ℚ), (jsRound (hsl.l * 255) : ℚ),
        (jsRound (hsl.l * 255) : ℚ)⟩ := by
  simp only [hslToRgb]
  rw [if_pos hs]

theorem jsRound_zero : jsRound (0 : ℚ) = 0 := by
  unfold jsRound
  rw [Int.floor_eq_iff]
  norm_num

theorem jsRound_255 : jsRound (255 : ℚ) = 255 := by
  unfold jsRound
  rw [Int.floor_eq_iff]
  norm_num

/-- Lightening by 0.15 strictly increases the channel sum, except on pure
white. -/
theorem sumChannels_lighten {rgb : RGB} {a b c : ℕ}
    (hva : rgb.r = (a : ℚ)) (hvb : rgb.g = (b : ℚ)) (hvc : rgb.b = (c : ℚ))
    (ha : a ≤ 255) (hb : b ≤ 255) (hc : c ≤ 255)
    (hw : ¬(a = 255 ∧ b = 255 ∧ c = 255)) :
    sumChannels rgb < sumChannels (hslToRgb
      { rgbToHsl rgb with l := min 1 ((rgbToHsl rgb).l + 15/100) }) := by
  have h0r : 0 ≤ rgb.r := by rw [hva]; positivity
  have h0g : 0 ≤ rgb.g := by rw [hvb]; positivity
  have h0b : 0 ≤ rgb.b := by rw [hvc]; positivity
  have h1r : rgb.r ≤ 255 := by rw [hva]; exact_mod_cast ha
  have h1g : rgb.g ≤ 255 := by rw [hvb]; exact_mod_cast hb
  have h1b : rgb.b ≤ 255 := by rw [hvc]; exact_mod_cast hc
  by_cases hcase : max (rgb.r/255) (max (rgb.g/255) (rgb.b/255)) =
      min (rgb.r/255) (min (rgb.g/255) (rgb.b/255))
  · obtain ⟨hhsl, hgr, hbr⟩ := rgbToHsl_achromatic rgb hcase
    have hba : b = a := by
      have : (b : ℚ) = (a : ℚ) := by rw [← hva, ← hvb]; exact hgr
      exact_mod_cast this
    have hca : c = a := by
      have : (c : ℚ) = (a : ℚ) := by rw [← hva, ← hvc]; exact hbr
      exact_mod_cast this
    have ha255 : a < 255 := by omega
    rw [hhsl]
    rw [hslToRgb_achromatic_eq _ rfl]
    unfold sumChannels
    dsimp only
    rw [hva, hvb, hvc, hba, hca]
    have key : (a:ℚ) < (jsRound (min 1 ((a:ℚ) / 255 + 15/100) * 255) : ℚ) := by
      rcases le_or_lt ((a:ℚ) / 255 + 15/100) 1 with hle | hgt
      · rw [min_eq_right hle]
        have harith : ((a:ℚ) / 255 + 15/100) * 255 = (a:ℚ) + 153/4 := by ring
        rw [harith]
        have hgt2 := jsRound_gt ((a:ℚ) + 153/4)
        linarith
      · rw [min_eq_left hgt.le, one_mul, jsRound_255]
        exact_mod_cast ha255
    linarith
  · obtain ⟨hS_pos, hS1, hl, hh0, hh360, hq, hch1, hch2, hch3⟩ :=
      rgbToHsl_chromatic rgb h0r h1r h0g h1g h0b h1b hcase
    obtain ⟨_, _, hS0, _, hL0, hL1⟩ :=
      rgbToHsl_bounds rgb h0r h1r h0g h1g h0b h1b
    obtain ⟨u, hu0, hu1, hsum⟩ := hue_triple_sum ((rgbToHsl rgb).h / 360)
      (by positivity) (by rw [div_lt_one (by norm_num : (0:ℚ) < 360)]; exact hh360)
    have hsum_orig : rgb.r + rgb.g + rgb.b =
        255 * (2*(2 * (rgbToHsl rgb).l - qOf (rgbToHsl rgb).s (rgbToHsl rgb).l) +
          qOf (rgbToHsl rgb).s (rgbToHsl rgb).l +
          (qOf (rgbToHsl rgb).s (rgbToHsl rgb).l -
            (2 * (rgbToHsl rgb).l - qOf (rgbToHsl rgb).s (rgbToHsl rgb).l)) * u) := by
      have h1 := hsum (2 * (rgbToHsl rgb).l - qOf (rgbToHsl rgb).s (rgbToHsl rgb).l)
        (qOf (rgbToHsl rgb).s (rgbToHsl rgb).l)
      linear_combination 255 * h1 - 255 * hch1 - 255 * hch2 - 255 * hch3
    rw [hslToRgb_chromatic_eq _ (by dsimp only; exact ne_of_gt hS_pos)]
    unfold sumChannels
    dsimp only
    set S := (rgbToHsl rgb).s with hSdef
    set L := (rgbToHsl rgb).l with hLdef
    set H := (rgbToHsl rgb).h with hHdef
    set lNew := min 1 (L + 15/100) with hlNew
    have hlNew0 : 0 ≤ lNew := le_min (by norm_num) (by linarith)
    have hlNew1 : lNew ≤ 1 := min_le_left _ _
    have hLle : L ≤ lNew := le_min (by linarith) (by linarith)
    have hsum' := hsum (2 * lNew - qOf S lNew) (qOf S lNew)
    have lb1 := jsRound_gt (hue2rgb (2 * lNew - qOf S lNew) (qOf S lNew)
      (H / 360 + 1/3) * 255)
    have lb2 := jsRound_gt (hue2rgb (2 * lNew - qOf S lNew) (qOf S lNew)
      (H / 360) * 255)
    have lb3 := jsRound_gt (hue2rgb (2 * lNew - qOf S lNew) (qOf S lNew)
      (H / 360 - 1/3) * 255)
    rcases le_or_lt (L + 15/100) 1 with hle | hgt
    · have hlNew_eq : lNew = L + 15/100 := min_eq_right hle
      have hmono := sum_mono S u L lNew hS0 hS1 hu0 hu1 hLle hL0 hlNew1
      linarith only [lb1, lb2, lb3, hsum', hmono, hsum_orig, hlNew_eq]
    · have hlNew_eq : lNew = 1 := min_eq_left hgt.le
      have hq1 : qOf S 1 = 1 := by
        unfold qOf
        rw [if_neg (by norm_num)]
        ring
      have hchan : ∀ t0 : ℚ, -1/3 ≤ t0 → t0 ≤ 4/3 →
          hue2rgb (2 * lNew - qOf S lNew) (qOf S lNew) t0 = 1 := by
        intro t0 ht1 ht2
        rw [hlNew_eq, hq1]
        norm_num
        exact hue2rgb_const 1 t0 ht1 ht2
      have hdiv : 0 ≤ H / 360 ∧ H / 360 < 1 := by
        constructor
        · positivity
        · rw [div_lt_one (by norm_num : (0:ℚ) < 360)]
          exact hh360
      rw [hchan (H / 360 + 1/3) (by linarith [hdiv.1]) (by linarith [hdiv.2]),
        hchan (H / 360) (by linarith [hdiv.1]) (by linarith [hdiv.2]),
        hchan (H / 360 - 1/3) (by linarith [hdiv.1]) (by linarith [hdiv.2]),
        one_mul, jsRound_255]
    -- sum is 765; original sum is below 765
      have hlt : a + b + c < 765 := by omega
      have : rgb.r + rgb.g + rgb.b < 765 := by
        rw [hva, hvb, hvc]
        exact_mod_cast hlt
      push_cast
      linarith

/-- Darkening by 0.12 strictly decreases the channel sum, except on pure
black. -/
theorem sumChannels_darken {rgb : RGB} {a b c : ℕ}
    (hva : rgb.r = (a : ℚ)) (hvb : rgb.g = (b : ℚ)) (hvc : rgb.b = (c : ℚ))
    (ha : a ≤ 255) (hb : b ≤ 255) (hc : c ≤ 255)
    (hblack : ¬(a = 0 ∧ b = 0 ∧ c = 0)) :
    sumChannels (hslToRgb
      { rgbToHsl rgb with l := max 0 ((rgbToHsl rgb).l - 12/100) }) <
      sumChannels rgb := by
  have h0r : 0 ≤ rgb.r := by rw [hva]; positivity
  have h0g : 0 ≤ rgb.g := by rw [hvb]; positivity
  have h0b : 0 ≤ rgb.b := by rw [hvc]; positivity
  have h1r : rgb.r ≤ 255 := by rw [hva]; exact_mod_cast ha
  have h1g : rgb.g ≤ 255 := by rw [hvb]; exact_mod_cast hb
  have h1b : rgb.b ≤ 255 := by rw [hvc]; exact_mod_cast hc
  by_cases hcase : max (rgb.r/255) (max (rgb.g/255) (rgb.b/255)) =
      min (rgb.r/255) (min (rgb.g/255) (rgb.b/255))
  · obtain ⟨hhsl, hgr, hbr⟩ := rgbToHsl_achromatic rgb hcase
    have hba : b = a := by
      have : (b : ℚ) = (a : ℚ) := by rw [← hva, ← hvb]; exact hgr
      exact_mod_cast this
    have hca : c = a := by
      have : (c : ℚ) = (a : ℚ) := by rw [← hva, ← hvc]; exact hbr
      exact_mod_cast this
    have ha0 : 0 < a := by omega
    rw [hhsl]
    rw [hslToRgb_achromatic_eq _ rfl]
    unfold sumChannels
    dsimp only
    rw [hva, hvb, hvc, hba, hca]
    have key : (jsRound (max 0 ((a:ℚ) / 255 - 12/100) * 255) : ℚ) < (a:ℚ) := by
      rcases le_or_lt 0 ((a:ℚ) / 255 - 12/100) with hle | hlt
      · rw [max_eq_right hle]
        have harith : ((a:ℚ) / 255 - 12/100) * 255 = (a:ℚ) - 153/5 := by ring
        rw [harith]
        have hle2 := jsRound_le ((a:ℚ) - 153/5)
        linarith
      · rw [max_eq_left hlt.le, zero_mul, jsRound_zero]
        exact_mod_cast ha0
    linarith
  · obtain ⟨hS_pos, hS1, hl, hh0, hh360, hq, hch1, hch2, hch3⟩ :=
      rgbToHsl_chromatic rgb h0r h1r h0g h1g h0b h1b hcase
    obtain ⟨_, _, hS0, _, hL0, hL1⟩ :=
      rgbToHsl_bounds rgb h0r h1r h0g h1g h0b h1b
    obtain ⟨u, hu0, hu1, hsum⟩ := hue_triple_sum ((rgbToHsl rgb).h / 360)
      (by positivity) (by rw [div_lt_one (by norm_num : (0:ℚ) < 360)]; exact hh360)
    have hsum_orig : rgb.r + rgb.g + rgb.b =
        255 * (2*(2 * (rgbToHsl rgb).l - qOf (rgbToHsl rgb).s (rgbToHsl rgb).l) +
          qOf (rgbToHsl rgb).s (rgbToHsl rgb).l +
          (qOf (rgbToHsl rgb).s (rgbToHsl rgb).l -
            (2 * (rgbToHsl rgb).l - qOf (rgbToHsl rgb).s (rgbToHsl rgb).l)) * u) := by
      have h1 := hsum (2 * (rgbToHsl rgb).l - qOf (rgbToHsl rgb).s (rgbToHsl rgb).l)
        (qOf (rgbToHsl rgb).s (rgbToHsl rgb).l)
      linear_combination 255 * h1 - 255 * hch1 - 255 * hch2 - 255 * hch3
    rw [hslToRgb_chromatic_eq _ (by dsimp only; exact ne_of_gt hS_pos)]
    unfold sumChannels
    dsimp only
    set S := (rgbToHsl rgb).s with hSdef
    set L := (rgbToHsl rgb).l with hLdef
    set H := (rgbToHsl rgb).h with hHdef
    set lNew := max 0 (L - 12/100) with hlNew
    have hlNew0 : 0 ≤ lNew := le_max_left _ _
    have hlNew1 : lNew ≤ 1 := max_le (by norm_num) (by linarith)
    have hLge : lNew ≤ L := max_le hL0 (by linarith)
    have hsum' := hsum (2 * lNew - qOf S lNew) (qOf S lNew)
    have ub1 := jsRound_le (hue2rgb (2 * lNew - qOf S lNew) (qOf S lNew)
      (H / 360 + 1/3) * 255)
    have ub2 := jsRound_le (hue2rgb (2 * lNew - qOf S lNew) (qOf S lNew)
      (H / 360) * 255)
    have ub3 := jsRound_le (hue2rgb (2 * lNew - qOf S lNew) (qOf S lNew)
      (H / 360 - 1/3) * 255)
    rcases le_or_lt 0 (L - 12/100) with hle | hlt
    · have hlNew_eq : lNew = L - 12/100 := max_eq_right hle
      have hmono := sum_mono S u lNew L hS0 hS1 hu0 hu1 hLge hlNew0 hL1
      linarith only [ub1, ub2, ub3, hsum', hmono, hsum_orig, hlNew_eq]
    · have hlNew_eq : lNew = 0 := max_eq_left hlt.le
      have hq0 : qOf S 0 = 0 := by
        unfold qOf
        rw [if_pos (by norm_num : (0:ℚ) < 1/2)]
        ring
      have hchan : ∀ t0 : ℚ, -1/3 ≤ t0 → t0 ≤ 4/3 →
          hue2rgb (2 * lNew - qOf S lNew) (qOf S lNew) t0 = 0 := by
        intro t0 ht1 ht2
        rw [hlNew_eq, hq0]
        norm_num
        exact hue2rgb_const 0 t0 ht1 ht2
      have hdiv : 0 ≤ H / 360 ∧ H / 360 < 1 := by
        constructor
        · positivity
        · rw [div_lt_one (by norm_num : (0:ℚ) < 360)]
          exact hh360
      rw [hchan (H / 360 + 1/3) (by linarith [hdiv.1]) (by linarith [hdiv.2]),
        hchan (H / 360) (by linarith [hdiv.1]) (by linarith [hdiv.2]),
        hchan (H / 360 - 1/3) (by linarith [hdiv.1]) (by linarith [hdiv.2]),
        zero_mul, jsRound_zero]
      have hlt2 : 0 < a + b + c := by omega
      have : (0:ℚ) < rgb.r + rgb.g + rgb.b := by
        rw [hva, hvb, hvc]
        exact_mod_cast hlt2
      push_cast
      linarith

theorem clampRoundRGB_hslToRgb (hsl : HSL) (hh0 : 0 ≤ hsl.h) (hh1 : hsl.h < 360)
    (hs0 : 0 ≤ hsl.s) (hs1 : hsl.s ≤ 1) (hl0 : 0 ≤ hsl.l) (hl1 : hsl.l ≤ 1) :
    clampRoundRGB (hslToRgb hsl) = hslToRgb hsl := by
  have h255 : ((255 : ℕ) : ℚ) = (255 : ℚ) := by norm_num
  by_cases hs : hsl.s = 0
  · rw [hslToRgb_achromatic_eq _ hs]
    have hv0 : 0 ≤ jsRound (hsl.l * 255) := jsRound_nonneg (by positivity)
    have hv1 : jsRound (hsl.l * 255) ≤ 255 := by
      have := jsRound_le_of_le (n := 255) (x := hsl.l * 255) (by push_cast; nlinarith)
      exact_mod_cast this
    unfold clampRoundRGB
    dsimp only
    rw [clampRound_intCast hv0 hv1]
  · rw [hslToRgb_chromatic_eq _ hs]
    have hp0 : 0 ≤ 2 * hsl.l - qOf hsl.s hsl.l := by
      have := qOf_le_twoMul (s := hsl.s) (l := hsl.l) hs1 hl0 hl1
      linarith
    have hq1 : qOf hsl.s hsl.l ≤ 1 := qOf_le_one hs0 hs1 hl0 hl1
    have hpq : 2 * hsl.l - qOf hsl.s hsl.l ≤ qOf hsl.s hsl.l := by
      have := le_qOf (s := hsl.s) (l := hsl.l) hs0 hl0 hl1
      linarith
    have hdiv : 0 ≤ hsl.h / 360 ∧ hsl.h / 360 < 1 := by
      constructor
      · positivity
      · rw [div_lt_one (by norm_num : (0:ℚ) < 360)]
        exact hh1
    have mem1 := hue2rgb_mem (2 * hsl.l - qOf hsl.s hsl.l) (qOf hsl.s hsl.l)
      (hsl.h / 360 + 1/3) hp0 hq1 hpq (by linarith [hdiv.1]) (by linarith [hdiv.2])
    have mem2 := hue2rgb_mem (2 * hsl.l - qOf hsl.s hsl.l) (qOf hsl.s hsl.l)
      (hsl.h / 360) hp0 hq1 hpq (by linarith [hdiv.1]) (by linarith [hdiv.2])
    have mem3 := hue2rgb_mem (2 * hsl.l - qOf hsl.s hsl.l) (qOf hsl.s hsl.l)
      (hsl.h / 360 - 1/3) hp0 hq1 hpq (by linarith [hdiv.1]) (by linarith [hdiv.2])
    unfold clampRoundRGB
    dsimp only
    rw [clampRound_intCast (jsRound_nonneg (by nlinarith [mem1.1]))
        (by exact_mod_cast jsRound_le_of_le (n := 255) (by push_cast; nlinarith [mem1.2])),
      clampRound_intCast (jsRound_nonneg (by nlinarith [mem2.1]))
        (by exact_mod_cast jsRound_le_of_le (n := 255) (by push_cast; nlinarith [mem2.2])),
      clampRound_intCast (jsRound_nonneg (by nlinarith [mem3.1]))
        (by exact_mod_cast jsRound_le_of_le (n := 255) (by push_cast; nlinarith [mem3.2]))]

theorem rgbToHex_white : rgbToHex ⟨255, 255, 255⟩ = "#ffffff" := by
  have h1 : clampRound (255 : ℚ) = 255 := by
    have : ((255 : ℤ) : ℚ) = (255 : ℚ) := by norm_num
    rw [← this, clampRound_intCast (by norm_num) (by norm_num)]
  unfold rgbToHex
  dsimp only
  rw [h1]
  decide

theorem rgbToHex_black : rgbToHex ⟨0, 0, 0⟩ = "#000000" := by
  have h1 : clampRound (0 : ℚ) = 0 := by
    have : ((0 : ℤ) : ℚ) = (0 : ℚ) := by norm_num
    rw [← this, clampRound_intCast (by norm_num) (by norm_num)]
  unfold rgbToHex
  dsimp only
  rw [h1]
  decide

theorem lighten_white :
    hslToRgb { rgbToHsl (⟨255, 255, 255⟩ : RGB) with
      l := min 1 ((rgbToHsl (⟨255, 255, 255⟩ : RGB)).l + 15/100) } =
    ⟨255, 255, 255⟩ := by
  have hach := rgbToHsl_achromatic ⟨255, 255, 255⟩ (by norm_num)
  rw [hach.1]
  rw [hslToRgb_achromatic_eq _ rfl]
  have hmin : min 1 ((HSL.mk 0 0 ((⟨255,255,255⟩ : RGB).r / 255)).l + 15/100) = 1 := by
    dsimp only
    rw [min_eq_left (by norm_num)]
  have : (HSL.mk 0 0 ((⟨255,255,255⟩ : RGB).r / 255)).l = (255:ℚ)/255 := rfl
  dsimp only
  rw [show min 1 ((255:ℚ)/255 + 15/100) = 1 from by rw [min_eq_left (by norm_num)]]
  rw [one_mul, jsRound_255]
  norm_num

theorem darken_black :
    hslToRgb { rgbToHsl (⟨0, 0, 0⟩ : RGB) with
      l := max 0 ((rgbToHsl (⟨0, 0, 0⟩ : RGB)).l - 12/100) } =
    ⟨0, 0, 0⟩ := by
  have hach := rgbToHsl_achromatic ⟨0, 0, 0⟩ (by norm_num)
  rw [hach.1]
  rw [hslToRgb_achromatic_eq _ rfl]
  dsimp only
  rw [show max 0 ((0:ℚ)/255 - 12/100) = 0 from by rw [max_eq_left (by norm_num)]]
  rw [zero_mul, jsRound_zero]
  norm_num

/-! ### Style-sheet serializer lemmas -/

theorem generateCSS_eq_concat (scheme : ColorScheme) :
    generateCSS scheme = concatStrs (cssPieces scheme) := by
  simp [generateCSS, cssPieces, concatStrs, String.append_assoc,
    String.append_empty]

theorem concatStrs_contains {pieces : List String} {p pat : String}
    (hp : p ∈ pieces) (h : strContains p pat) :
    strContains (concatStrs pieces) pat := by
  induction pieces with
  | nil => cases hp
  | cons x rest ih =>
    rcases List.mem_cons.mp hp with heq | hmem
    · subst heq
      exact strContains_appendRight _ h
    · exact strContains_appendLeft _ (ih hmem)

set_option maxRecDepth 40000 in
theorem generateCSS_contains_names (scheme : ColorScheme) :
    ∀ name ∈ requiredCssNames, strContains (generateCSS scheme) name := by
  intro name hname
  rw [generateCSS_eq_concat]
  fin_cases hname
  · exact concatStrs_contains (p := cssChunk1) (by simp [cssPieces]) (by decide)
  · exact concatStrs_contains (p := cssChunk1) (by simp [cssPieces]) (by decide)
  · exact concatStrs_contains (p := cssChunk1) (by simp [cssPieces]) (by decide)
  · exact concatStrs_contains (p := cssChunk1) (by simp [cssPieces]) (by decide)
  · exact concatStrs_contains (p := cssChunk2) (by simp [cssPieces]) (by decide)
  · exact concatStrs_contains (p := cssChunk3) (by simp [cssPieces]) (by decide)
  · exact concatStrs_contains (p := cssChunk4) (by simp [cssPieces]) (by decide)
  · exact concatStrs_contains (p := cssChunk5) (by simp [cssPieces]) (by decide)
  · exact concatStrs_contains (p := cssChunk6) (by simp [cssPieces]) (by decide)
  · exact concatStrs_contains (p := cssChunk7) (by simp [cssPieces]) (by decide)
  · exact concatStrs_contains (p := cssChunk7) (by simp [cssPieces]) (by decide)
  · exact concatStrs_contains (p := cssChunk7) (by simp [cssPieces]) (by decide)
  · exact concatStrs_contains (p := cssChunk7) (by simp [cssPieces]) (by decide)
  · exact concatStrs_contains (p := cssChunk8) (by simp [cssPieces]) (by decide)
  · exact concatStrs_contains (p := cssChunk9) (by simp [cssPieces]) (by decide)
  · exact concatStrs_contains (p := cssChunk10) (by simp [cssPieces]) (by decide)
  · exact concatStrs_contains (p := cssChunk11) (by simp [cssPieces]) (by decide)
  · exact concatStrs_contains (p := cssChunk12) (by simp [cssPieces]) (by decide)
  · exact concatStrs_contains (p := cssChunk13) (by simp [cssPieces]) (by decide)
  · exact concatStrs_contains (p := cssChunk14) (by simp [cssPieces]) (by decide)
  · exact concatStrs_contains (p := cssChunk14) (by simp [cssPieces]) (by decide)
  · exact concatStrs_contains (p := cssChunk14) (by simp [cssPieces]) (by decide)

set_option maxRecDepth 40000 in
theorem generateCSS_contains_root (scheme : ColorScheme) :
    strContains (generateCSS scheme) ":root \x7b" := by
  rw [generateCSS_eq_concat]
  exact concatStrs_contains (p := cssChunk1) (by simp [cssPieces]) (by decide)

theorem generateCSS_contains_primary (scheme : ColorScheme) :
    strContains (generateCSS scheme) scheme.primary := by
  rw [generateCSS_eq_concat]
  exact concatStrs_contains (p := scheme.primary) (by simp [cssPieces])
    (strContains_self _)

/-! ### JSON serializer and parser lemmas -/

theorem jsonEscapeChar_plain {c : Char} (h : isPlainChar c = true) :
    jsonEscapeChar c = String.mk [c] := by
  simp only [isPlainChar, Bool.and_eq_true, Bool.not_eq_true',
    decide_eq_false_iff_not, decide_eq_true_eq] at h
  obtain ⟨⟨h32, hq⟩, hbs⟩ := h
  have hn : ¬ c = '\n' := by intro he; rw [he] at h32; exact absurd h32 (by decide)
  have hr : ¬ c = '\r' := by intro he; rw [he] at h32; exact absurd h32 (by decide)
  have ht : ¬ c = '\t' := by intro he; rw [he] at h32; exact absurd h32 (by decide)
  have h8 : ¬ c.toNat = 8 := by omega
  have h12 : ¬ c.toNat = 12 := by omega
  have hlt : ¬ c.toNat < 32 := by omega
  unfold jsonEscapeChar
  rw [if_neg hq, if_neg hbs, if_neg hn, if_neg hr, if_neg ht, if_neg h8, if_neg h12,
    if_neg hlt]

theorem concatStrs_map_escape_plain :
    ∀ cs : List Char, cs.all isPlainChar = true →
      concatStrs (cs.map jsonEscapeChar) = String.mk cs := by
  intro cs h
  induction cs with
  | nil => rfl
  | cons c rest ih =>
    simp only [List.all_cons, Bool.and_eq_true] at h
    simp only [List.map_cons, concatStrs]
    rw [jsonEscapeChar_plain h.1, ih h.2]
    rfl

theorem jsonEscape_plain {s : String} (h : s.data.all isPlainChar = true) :
    jsonEscape s = s := by
  unfold jsonEscape
  rw [concatStrs_map_escape_plain s.data h]

theorem parseQuoted_plain :
    ∀ (cs rest : List Char), cs.all isPlainChar = true →
      parseQuoted (cs ++ '"' :: rest) = some (cs, rest) := by
  intro cs
  induction cs with
  | nil =>
    intro rest _
    simp [parseQuoted]
  | cons c tail ih =>
    intro rest h
    simp only [List.all_cons, Bool.and_eq_true] at h
    have hne : ¬ c = '"' := by
      have := h.1
      simp only [isPlainChar, Bool.and_eq_true, Bool.not_eq_true',
        decide_eq_false_iff_not, decide_eq_true_eq] at this
      exact this.1.2
    have hne2 : ¬ c = '\\' := by
      have := h.1
      simp only [isPlainChar, Bool.and_eq_true, Bool.not_eq_true',
        decide_eq_false_iff_not, decide_eq_true_eq] at this
      exact this.2
    rw [show (c :: tail) ++ '"' :: rest = c :: (tail ++ '"' :: rest) from rfl,
      parseQuoted, if_neg hne, if_neg hne2, ih rest h.2]
    rfl

theorem optSomeBind {α β : Type} (a : α) (f : α → Option β) :
    (some a >>= f : Option β) = f a := rfl

/-- Parsing the serialized entry block of a nonempty list of plain-string
fields recovers the fields, given fuel at least the number of fields. -/
theorem parseEntries_jsonEntries :
    ∀ (fields : List (String × String)) (fuel : ℕ),
      fields ≠ [] →
      fields.length ≤ fuel →
      (∀ kv ∈ fields, kv.1.data.all isPlainChar = true ∧
        kv.2.data.all isPlainChar = true) →
      parseEntries fuel ((jsonEntries fields).data ++ ['\n', Char.ofNat 125]) =
        some fields := by
  intro fields
  induction fields with
  | nil => intro fuel hne; exact absurd rfl hne
  | cons kv rest ih =>
    intro fuel _ hlen hplain
    obtain ⟨hk, hv⟩ := hplain kv (List.mem_cons_self kv rest)
    cases fuel with
    | zero => simp at hlen
    | succ f =>
      cases rest with
      | nil =>
        simp only [jsonEntries, jsonEscape_plain hk, jsonEscape_plain hv]
        simp only [String.data_append, List.append_assoc, List.cons_append,
          List.nil_append]
        show parseEntries (f + 1)
          (' ' :: ' ' :: '"' :: (kv.1.data ++ '"' :: ':' :: ' ' :: '"' ::
            (kv.2.data ++ '"' :: '\n' :: [Char.ofNat 125]))) = some [kv]
        rw [parseEntries]
        rw [parseQuoted_plain kv.1.data _ hk]
        simp only [optSomeBind]
        rw [parseQuoted_plain kv.2.data _ hv]
        simp only [optSomeBind]
        rw [if_pos trivial]
        rfl
      | cons kv2 rs =>
        simp only [jsonEntries, jsonEscape_plain hk, jsonEscape_plain hv]
        simp only [String.data_append, List.append_assoc, List.cons_append,
          List.nil_append]
        show parseEntries (f + 1)
          (' ' :: ' ' :: '"' :: (kv.1.data ++ '"' :: ':' :: ' ' :: '"' ::
            (kv.2.data ++ '"' :: ',' :: '\n' ::
              ((jsonEntries (kv2 :: rs)).data ++ '\n' :: [Char.ofNat 125])))) =
            some (kv :: kv2 :: rs)
        rw [parseEntries]
        rw [parseQuoted_plain kv.1.data _ hk]
        simp only [optSomeBind]
        rw [parseQuoted_plain kv.2.data _ hv]
        simp only [optSomeBind]
        rw [if_neg (by simp)]
        rw [ih f (by simp) (by simp at hlen ⊢; omega)
          (fun p hp => hplain p (List.mem_cons_of_mem kv hp))]
        rfl

theorem jsonEntries_length_ge :
    ∀ fields : List (String × String),
      fields.length ≤ (jsonEntries fields).data.length := by
  intro fields
  induction fields with
  | nil => simp
  | cons kv rest ih =>
    cases rest with
    | nil =>
      simp [jsonEntries, String.data_append]
    | cons kv2 rs =>
      simp only [jsonEntries, String.data_append, List.length_append,
        List.length_cons] at ih ⊢
      simp at ih ⊢
      omega

/-- The `JSON.parse` model inverts `JSON.stringify(·, null, 2)` on nonempty
flat objects whose keys and values are plain strings. -/
theorem parseFlatStringObject_stringify (fields : List (String × String))
    (hne : fields ≠ [])
    (hplain : ∀ kv ∈ fields, kv.1.data.all isPlainChar = true ∧
      kv.2.data.all isPlainChar = true) :
    parseFlatStringObject (jsonStringifyFlat fields) = some fields := by
  have h1 : ("\x7b\n" : String).data = [Char.ofNat 123, '\n'] := by decide
  have h2 : ("\n\x7d" : String).data = ['\n', Char.ofNat 125] := by decide
  have hform : jsonStringifyFlat fields =
      "\x7b\n" ++ jsonEntries fields ++ "\n\x7d" := by
    cases fields with
    | nil => exact absurd rfl hne
    | cons kv rest => rfl
  have hdata : ("\x7b\n" ++ jsonEntries fields ++ "\n\x7d").data =
      Char.ofNat 123 :: '\n' ::
        ((jsonEntries fields).data ++ ['\n', Char.ofNat 125]) := by
    rw [String.data_append, String.data_append, h1, h2]
    simp [List.append_assoc]
  rw [hform]
  unfold parseFlatStringObject
  rw [hdata]
  simp only []
  rw [if_pos trivial]
  rw [parseEntries_jsonEntries fields _ hne ?hfuel hplain]
  case hfuel =>
    have := jsonEntries_length_ge fields
    simp only [List.length_append, List.length_cons, List.length_nil]
    omega

/-! ### Plain-character facts for the serializer outputs -/

theorem isPlainChar_hexDigitChar {m : ℕ} (h : m < 16) :
    isPlainChar (hexDigitChar m) = true := by
  interval_cases m <;> decide

theorem isPlainChar_of_hexDigit {c : Char} (h : isHexDigitChar c = true) :
    isPlainChar c = true := by
  unfold isHexDigitChar at h
  simp only [Bool.or_eq_true, Bool.and_eq_true, decide_eq_true_eq] at h
  unfold isPlainChar
  simp only [Bool.and_eq_true, Bool.not_eq_true', decide_eq_false_iff_not,
    decide_eq_true_eq]
  rcases h with (⟨h1, h2⟩ | ⟨h1, h2⟩) | ⟨h1, h2⟩
  · exact ⟨⟨by omega, fun he => by subst he; exact absurd h1 (by decide)⟩,
      fun he => by subst he; exact absurd h2 (by decide)⟩
  · exact ⟨⟨by omega, fun he => by subst he; exact absurd h1 (by decide)⟩,
      fun he => by subst he; exact absurd h1 (by decide)⟩
  · exact ⟨⟨by omega, fun he => by subst he; exact absurd h1 (by decide)⟩,
      fun he => by subst he; exact absurd h2 (by decide)⟩

theorem plain_rgbToHex (v : RGB) :
    (rgbToHex v).data.all isPlainChar = true := by
  have br : (clampRound v.r).toNat ≤ 255 := by
    have := clampRound_le v.r
    omega
  have bg : (clampRound v.g).toNat ≤ 255 := by
    have := clampRound_le v.g
    omega
  have bb : (clampRound v.b).toNat ≤ 255 := by
    have := clampRound_le v.b
    omega
  rw [rgbToHex_data]
  simp only [List.all_cons, List.all_nil, Bool.and_eq_true, Bool.and_true]
  exact ⟨by decide, isPlainChar_hexDigitChar (by omega),
    isPlainChar_hexDigitChar (by omega), isPlainChar_hexDigitChar (by omega),
    isPlainChar_hexDigitChar (by omega), isPlainChar_hexDigitChar (by omega),
    isPlainChar_hexDigitChar (by omega)⟩

theorem plain_canonicalSeed {s : String} {rgb : RGB}
    (h : hexToRgb (canonicalSeed s) = .ok rgb) :
    (canonicalSeed s).data.all isPlainChar = true := by
  obtain ⟨c1, c2, c3, c4, c5, c6, hbody, x1, x2, x3, x4, x5, x6, _⟩ :=
    hexToRgb_ok_elim h
  rw [canonicalSeed_data, ← hexBody_canonicalSeed, hbody]
  simp only [List.all_cons, List.all_nil, Bool.and_eq_true, Bool.and_true]
  exact ⟨by decide, isPlainChar_of_hexDigit x1, isPlainChar_of_hexDigit x2,
    isPlainChar_of_hexDigit x3, isPlainChar_of_hexDigit x4,
    isPlainChar_of_hexDigit x5, isPlainChar_of_hexDigit x6⟩

/-! ### The validation gate: pattern match versus parse result -/

theorem errBind {ε α β : Type} (e : ε) (f : α → Except ε β) :
    (Except.error e >>= f : Except ε β) = .error e := rfl

theorem hexToRgb_ok_of_pattern {s : String} (h : matchesHexPattern s = true) :
    ∃ rgb, hexToRgb s = .ok rgb := by
  unfold matchesHexPattern at h
  simp only [Bool.and_eq_true, decide_eq_true_eq] at h
  obtain ⟨hlen, hall⟩ := h
  rcases hb : hexBody s with _ | ⟨c1, _ | ⟨c2, _ | ⟨c3, _ | ⟨c4, _ | ⟨c5,
    _ | ⟨c6, _ | ⟨c7, t⟩⟩⟩⟩⟩⟩⟩ <;> rw [hb] at hlen hall <;>
    first
    | (exfalso; simp only [List.length_cons, List.length_nil] at hlen; omega)
    | skip
  simp only [List.all_cons, List.all_nil, Bool.and_eq_true, Bool.and_true] at hall
  obtain ⟨x1, x2, x3, x4, x5, x6⟩ := hall
  rw [hexToRgb_eq_of_body hb]
  rw [if_pos (by rw [x1, x2, x3, x4, x5, x6]; rfl)]
  exact ⟨_, rfl⟩

theorem hexToRgb_pattern_false {s : String} (h : matchesHexPattern s = false) :
    hexToRgb s = .error ("Invalid hex color: " ++ s) := by
  unfold hexToRgb
  unfold matchesHexPattern at h
  split
  case _ c1 c2 c3 c4 c5 c6 heq =>
    rw [heq] at h
    rw [if_neg]
    intro hx
    simp only [Bool.and_eq_true] at hx
    obtain ⟨⟨⟨⟨⟨x1, x2⟩, x3⟩, x4⟩, x5⟩, x6⟩ := hx
    simp [x1, x2, x3, x4, x5, x6] at h
  case _ => rfl

theorem generateColorScheme_error {seed : String} {e : String}
    (h : hexToRgb (canonicalSeed seed) = .error e) :
    generateColorScheme seed = .error e := by
  simp only [generateColorScheme]
  rw [h]
  rfl

/-! ### The style sheet does not begin with the root selector -/

set_option maxRecDepth 40000 in
theorem generateCSS_not_root (scheme : ColorScheme) :
    ¬ strStartsWith (generateCSS scheme) ":root \x7b" := by
  intro hp
  obtain ⟨t, ht⟩ := hp
  have hs : (":root \x7b" : String).data =
      ':' :: (":root \x7b" : String).data.tail := by decide
  have hc : cssChunk0.data = '/' :: cssChunk0.data.tail := by decide
  have hgen : (generateCSS scheme).data =
      cssChunk0.data ++ (concatStrs (cssPieces scheme).tail).data := by
    rw [generateCSS_eq_concat]
    show (concatStrs (cssChunk0 :: (cssPieces scheme).tail)).data = _
    simp only [concatStrs, String.data_append]
  rw [← ht, hs, List.cons_append, hc, List.cons_append] at hgen
  injection hgen with h1 _
  exact absurd h1 (by decide)

/-! ### Hue computations for the shift normalization -/

theorem rgbToHsl_red : (rgbToHsl (⟨255, 0, 0⟩ : RGB)).h = 0 := by
  norm_num [rgbToHsl]

theorem jsMod_neg_example : jsMod (-180 : ℚ) 360 = -180 := by
  unfold jsMod jsTrunc
  rw [if_neg (by norm_num)]
  have hc : ⌈((-180 : ℚ) / 360)⌉ = 0 := by
    rw [Int.ceil_eq_iff] <;> norm_num
  rw [hc]
  norm_num

/-! ### Channel bounds extracted from a successful parse -/

theorem hexToRgb_rgb_bounds {s : String} {rgb : RGB} (h : hexToRgb s = .ok rgb) :
    0 ≤ rgb.r ∧ rgb.r ≤ 255 ∧ 0 ≤ rgb.g ∧ rgb.g ≤ 255 ∧ 0 ≤ rgb.b ∧
      rgb.b ≤ 255 := by
  obtain ⟨a, b, c, hv, ha, hb, hc⟩ := hexToRgb_channels h
  subst hv
  refine ⟨?_, ?_, ?_, ?_, ?_, ?_⟩
  · show (0 : ℚ) ≤ ((a : ℕ) : ℚ)
    positivity
  · show ((a : ℕ) : ℚ) ≤ 255
    exact_mod_cast ha
  · show (0 : ℚ) ≤ ((b : ℕ) : ℚ)
    positivity
  · show ((b : ℕ) : ℚ) ≤ 255
    exact_mod_cast hb
  · show (0 : ℚ) ≤ ((c : ℕ) : ℚ)
    positivity
  · show ((c : ℕ) : ℚ) ≤ 255
    exact_mod_cast hc

/-! ### The claims -/

/-- C1: `generateColorScheme` succeeds exactly on seeds matching
`^#?[0-9a-fA-F]{6}$`; on success the `primary` field is the seed with a
leading `#` prepended when it was missing, and on failure the error is
`Invalid hex color: <canonicalized seed>`, whose text contains the
offending input. -/
theorem claim_C1 (seed : String) :
    (matchesHexPattern seed = true →
      ∃ scheme, generateColorScheme seed = .ok scheme ∧
        scheme.primary = canonicalSeed seed ∧
        (startsWithHash seed = true → scheme.primary = seed) ∧
        (startsWithHash seed = false → scheme.primary = "#" ++ seed)) ∧
    (matchesHexPattern seed = false →
      generateColorScheme seed =
        .error ("Invalid hex color: " ++ canonicalSeed seed) ∧
      strContains ("Invalid hex color: " ++ canonicalSeed seed) seed) := by
  constructor
  · intro hpat
    have hpat' : matchesHexPattern (canonicalSeed seed) = true := by
      rw [matchesHexPattern_canonicalSeed]
      exact hpat
    obtain ⟨rgb, hok⟩ := hexToRgb_ok_of_pattern hpat'
    refine ⟨_, generateColorScheme_ok hok, rfl, ?_, ?_⟩
    · intro hh
      show canonicalSeed seed = seed
      unfold canonicalSeed
      rw [if_pos hh]
    · intro hh
      show canonicalSeed seed = "#" ++ seed
      unfold canonicalSeed
      rw [if_neg (by rw [hh]; exact Bool.false_ne_true)]
  · intro hpat
    have hpat' : matchesHexPattern (canonicalSeed seed) = false := by
      rw [matchesHexPattern_canonicalSeed]
      exact hpat
    refine ⟨generateColorScheme_error (hexToRgb_pattern_false hpat'), ?_⟩
    rcases canonicalSeed_cases seed with hcs | hcs
    · rw [hcs]
      exact strContains_appendLeft _ (strContains_self _)
    · rw [hcs]
      exact strContains_appendLeft _
        (strContains_appendLeft _ (strContains_self _))

/-- Witness for C1 at the documented seeds: `"0ea5e9"` succeeds with
primary `#0ea5e9`, and a malformed seed fails with the documented error. -/
theorem claim_C1_witness :
    (∃ scheme, generateColorScheme "0ea5e9" = .ok scheme ∧
      scheme.primary = canonicalSeed "0ea5e9" ∧
      (startsWithHash "0ea5e9" = true → scheme.primary = "0ea5e9") ∧
      (startsWithHash "0ea5e9" = false → scheme.primary = "#" ++ "0ea5e9")) ∧
    (generateColorScheme "zzz" =
      .error ("Invalid hex color: " ++ canonicalSeed "zzz") ∧
      strContains ("Invalid hex color: " ++ canonicalSeed "zzz") "zzz") :=
  ⟨(claim_C1 "0ea5e9").1 (by decide), (claim_C1 "zzz").2 (by decide)⟩

/-- C2: parsing a valid hex color and re-rendering it yields the
case-normalized (lowercase, `#`-prefixed) form of the input, and the full
HSL round trip reproduces the parsed integer channels exactly. -/
theorem claim_C2 {s : String} {rgb : RGB} (h : hexToRgb s = .ok rgb) :
    rgbToHex rgb = lowerStr (canonicalSeed s) ∧
    hexToRgb (rgbToHex (hslToRgb (rgbToHsl rgb))) = .ok rgb := by
  have hcast : ∀ n : ℕ, n ≤ 255 →
      ((clampRound ((n : ℕ) : ℚ) : ℤ) : ℚ) = ((n : ℕ) : ℚ) := by
    intro n hn
    have h2 : (((n : ℕ) : ℚ)) = (((n : ℤ)) : ℚ) := by push_cast; ring
    rw [h2, clampRound_intCast (by positivity) (by exact_mod_cast hn)]
  constructor
  · obtain ⟨c1, c2, c3, c4, c5, c6, hbody, x1, x2, x3, x4, x5, x6, hv⟩ :=
      hexToRgb_ok_elim h
    subst hv
    have hts : ∀ n : ℕ, n ≤ 255 → (clampRound ((n : ℕ) : ℚ)).toNat = n := by
      intro n hn
      have := hcast n hn
      have h3 : clampRound ((n : ℕ) : ℚ) = ((n : ℕ) : ℤ) := by exact_mod_cast this
      rw [h3]
      exact Int.toNat_natCast n
    have b12 := hexPairVal_le x1 x2
    have b34 := hexPairVal_le x3 x4
    have b56 := hexPairVal_le x5 x6
    have hd1 := hexDigitVal_lt x1
    have hd2 := hexDigitVal_lt x2
    have hd3 := hexDigitVal_lt x3
    have hd4 := hexDigitVal_lt x4
    have hd5 := hexDigitVal_lt x5
    have hd6 := hexDigitVal_lt x6
    have hdq : (rgbToHex ⟨((hexPairVal c1 c2 : ℕ) : ℚ), ((hexPairVal c3 c4 : ℕ) : ℚ),
        ((hexPairVal c5 c6 : ℕ) : ℚ)⟩).data = (lowerStr (canonicalSeed s)).data := by
      rw [rgbToHex_data]
      show ['#', hexDigitChar ((clampRound ((hexPairVal c1 c2 : ℕ) : ℚ)).toNat / 16),
        hexDigitChar ((clampRound ((hexPairVal c1 c2 : ℕ) : ℚ)).toNat % 16),
        hexDigitChar ((clampRound ((hexPairVal c3 c4 : ℕ) : ℚ)).toNat / 16),
        hexDigitChar ((clampRound ((hexPairVal c3 c4 : ℕ) : ℚ)).toNat % 16),
        hexDigitChar ((clampRound ((hexPairVal c5 c6 : ℕ) : ℚ)).toNat / 16),
        hexDigitChar ((clampRound ((hexPairVal c5 c6 : ℕ) : ℚ)).toNat % 16)] = _
      rw [hts _ b12, hts _ b34, hts _ b56]
      have e1 : hexPairVal c1 c2 / 16 = hexDigitVal c1 := by
        unfold hexPairVal
        omega
      have e2 : hexPairVal c1 c2 % 16 = hexDigitVal c2 := by
        unfold hexPairVal
        omega
      have e3 : hexPairVal c3 c4 / 16 = hexDigitVal c3 := by
        unfold hexPairVal
        omega
      have e4 : hexPairVal c3 c4 % 16 = hexDigitVal c4 := by
        unfold hexPairVal
        omega
      have e5 : hexPairVal c5 c6 / 16 = hexDigitVal c5 := by
        unfold hexPairVal
        omega
      have e6 : hexPairVal c5 c6 % 16 = hexDigitVal c6 := by
        unfold hexPairVal
        omega
      rw [e1, e2, e3, e4, e5, e6, hexDigitChar_toLower x1, hexDigitChar_toLower x2,
        hexDigitChar_toLower x3, hexDigitChar_toLower x4, hexDigitChar_toLower x5,
        hexDigitChar_toLower x6]
      show _ = (canonicalSeed s).data.map Char.toLower
      rw [canonicalSeed_data, hbody]
      simp only [List.map_cons, List.map_nil]
      rw [show Char.toLower '#' = '#' from by decide]
    calc rgbToHex ⟨((hexPairVal c1 c2 : ℕ) : ℚ), ((hexPairVal c3 c4 : ℕ) : ℚ),
          ((hexPairVal c5 c6 : ℕ) : ℚ)⟩
        = String.mk (rgbToHex ⟨((hexPairVal c1 c2 : ℕ) : ℚ),
            ((hexPairVal c3 c4 : ℕ) : ℚ), ((hexPairVal c5 c6 : ℕ) : ℚ)⟩).data := rfl
      _ = String.mk (lowerStr (canonicalSeed s)).data := by rw [hdq]
      _ = lowerStr (canonicalSeed s) := rfl
  · rw [hslToRgb_rgbToHsl_exact h]
    obtain ⟨a, b, c, hv, ha, hb, hc⟩ := hexToRgb_channels h
    subst hv
    rw [hexToRgb_rgbToHex]
    congr 1
    congr 1
    · show ((clampRound ((a : ℕ) : ℚ) : ℤ) : ℚ) = ((a : ℕ) : ℚ)
      exact hcast a ha
    · show ((clampRound ((b : ℕ) : ℚ) : ℤ) : ℚ) = ((b : ℕ) : ℚ)
      exact hcast b hb
    · show ((clampRound ((c : ℕ) : ℚ) : ℤ) : ℚ) = ((c : ℕ) : ℚ)
      exact hcast c hc

/-- Witness for C2 at the mixed-case seed `#0EA5E9`. -/
theorem claim_C2_witness :
    rgbToHex ⟨14, 165, 233⟩ = lowerStr (canonicalSeed "#0EA5E9") ∧
    hexToRgb (rgbToHex (hslToRgb (rgbToHsl ⟨14, 165, 233⟩))) =
      .ok ⟨14, 165, 233⟩ :=
  @claim_C2 "#0EA5E9" ⟨14, 165, 233⟩ (by rfl)

/-- C3 (amended): for every valid seed the style sheet contains `:root {`,
the literal canonicalized seed, and every required custom-property name —
but it does not begin with `:root {`: the output starts with a banner
comment. -/
theorem claim_C3 {seed : String} {rgb : RGB}
    (h : hexToRgb (canonicalSeed seed) = .ok rgb) :
    ∃ scheme, generateColorScheme seed = .ok scheme ∧
      strContains (generateCSS scheme) ":root \x7b" ∧
      strContains (generateCSS scheme) (canonicalSeed seed) ∧
      (∀ name ∈ requiredCssNames, strContains (generateCSS scheme) name) ∧
      ¬ strStartsWith (generateCSS scheme) ":root \x7b" :=
  ⟨schemeOf (canonicalSeed seed) rgb, generateColorScheme_ok h,
    generateCSS_contains_root _, generateCSS_contains_primary _,
    generateCSS_contains_names _, generateCSS_not_root _⟩

/-- Counterexample to C3 as stated: for the documented seed `#0ea5e9` the
generated style sheet does not begin with `:root {`. -/
theorem claim_C3_counterexample :
    ∃ scheme, generateColorScheme "#0ea5e9" = .ok scheme ∧
      ¬ strStartsWith (generateCSS scheme) ":root \x7b" :=
  ⟨schemeOf (canonicalSeed "#0ea5e9") ⟨14, 165, 233⟩,
    @generateColorScheme_ok "#0ea5e9" ⟨14, 165, 233⟩ (by rfl),
    generateCSS_not_root _⟩

/-- Witness for C3 at the seed `#0ea5e9`. -/
theorem claim_C3_witness :
    ∃ scheme, generateColorScheme "#0ea5e9" = .ok scheme ∧
      strContains (generateCSS scheme) ":root \x7b" ∧
      strContains (generateCSS scheme) (canonicalSeed "#0ea5e9") ∧
      (∀ name ∈ requiredCssNames, strContains (generateCSS scheme) name) ∧
      ¬ strStartsWith (generateCSS scheme) ":root \x7b" :=
  @claim_C3 "#0ea5e9" ⟨14, 165, 233⟩ (by rfl)

/-- C4 (amended): for a valid hex color and any shift of at least `-360`
degrees, the hue used by `shiftHue` is `(h + degrees + 360) % 360`, it lies
in `[0, 360)`, and saturation and lightness are unchanged.  (For shifts
below `-360` the JavaScript `%` yields a negative hue.) -/
theorem claim_C4 {hex : String} {rgb : RGB} {degrees : ℚ}
    (h : hexToRgb hex = .ok rgb) (hdeg : -360 ≤ degrees) :
    shiftHue hex degrees = .ok (rgbToHex (hslToRgb { rgbToHsl rgb with
      h := jsMod ((rgbToHsl rgb).h + degrees + 360) 360 })) ∧
    0 ≤ jsMod ((rgbToHsl rgb).h + degrees + 360) 360 ∧
    jsMod ((rgbToHsl rgb).h + degrees + 360) 360 < 360 ∧
    ({ rgbToHsl rgb with
      h := jsMod ((rgbToHsl rgb).h + degrees + 360) 360 } : HSL).s =
      (rgbToHsl rgb).s ∧
    ({ rgbToHsl rgb with
      h := jsMod ((rgbToHsl rgb).h + degrees + 360) 360 } : HSL).l =
      (rgbToHsl rgb).l := by
  obtain ⟨h0r, h1r, h0g, h1g, h0b, h1b⟩ := hexToRgb_rgb_bounds h
  obtain ⟨hh0, _, _, _, _, _⟩ := rgbToHsl_bounds rgb h0r h1r h0g h1g h0b h1b
  exact ⟨shiftHue_ok degrees h, jsMod_nonneg (by linarith) (by norm_num),
    jsMod_lt (by linarith) (by norm_num), rfl, rfl⟩

/-- Counterexample to C4 as stated: shifting pure red by `-540` degrees
(magnitude above 360) produces the hue `-180`, outside `[0, 360)`. -/
theorem claim_C4_counterexample :
    shiftHue "#ff0000" (-540) =
      .ok (rgbToHex (hslToRgb { rgbToHsl (⟨255, 0, 0⟩ : RGB) with
        h := jsMod ((rgbToHsl (⟨255, 0, 0⟩ : RGB)).h + (-540) + 360) 360 })) ∧
    jsMod ((rgbToHsl (⟨255, 0, 0⟩ : RGB)).h + (-540) + 360) 360 = -180 := by
  constructor
  · exact @shiftHue_ok "#ff0000" ⟨255, 0, 0⟩ (-540) (by rfl)
  · rw [rgbToHsl_red, show (0 : ℚ) + (-540) + 360 = -180 from by norm_num]
    exact jsMod_neg_example

/-- Witness for C4's amended statement at `#ff0000` shifted by `-180`. -/
theorem claim_C4_witness :
    shiftHue "#ff0000" (-180) =
      .ok (rgbToHex (hslToRgb { rgbToHsl (⟨255, 0, 0⟩ : RGB) with
        h := jsMod ((rgbToHsl (⟨255, 0, 0⟩ : RGB)).h + (-180) + 360) 360 })) ∧
    0 ≤ jsMod ((rgbToHsl (⟨255, 0, 0⟩ : RGB)).h + (-180) + 360) 360 ∧
    jsMod ((rgbToHsl (⟨255, 0, 0⟩ : RGB)).h + (-180) + 360) 360 < 360 ∧
    ({ rgbToHsl (⟨255, 0, 0⟩ : RGB) with
      h := jsMod ((rgbToHsl (⟨255, 0, 0⟩ : RGB)).h + (-180) + 360) 360 } : HSL).s =
      (rgbToHsl (⟨255, 0, 0⟩ : RGB)).s ∧
    ({ rgbToHsl (⟨255, 0, 0⟩ : RGB) with
      h := jsMod ((rgbToHsl (⟨255, 0, 0⟩ : RGB)).h + (-180) + 360) 360 } : HSL).l =
      (rgbToHsl (⟨255, 0, 0⟩ : RGB)).l :=
  @claim_C4 "#ff0000" ⟨255, 0, 0⟩ (-180) (by rfl) (by norm_num)

/-- C5: the `cyan` field is the hex rendering of
`(180 + h % 30, min 1 (s*1.1), min 0.85 (l + 0.1))` and the `indigo` field
of `(240 + h % 20, s*0.9, l*0.95)` — the source's `min 1 (s*0.9)` cap on the
indigo saturation is vacuous since `s ≤ 1`. -/
theorem claim_C5 {seed : String} {rgb : RGB}
    (h : hexToRgb (canonicalSeed seed) = .ok rgb) :
    ∃ scheme, generateColorScheme seed = .ok scheme ∧
      scheme.cyan = rgbToHex (hslToRgb ⟨180 + jsMod (rgbToHsl rgb).h 30,
        min 1 ((rgbToHsl rgb).s * (11/10)),
        min (85/100) ((rgbToHsl rgb).l + 1/10)⟩) ∧
      scheme.indigo = rgbToHex (hslToRgb ⟨240 + jsMod (rgbToHsl rgb).h 20,
        (rgbToHsl rgb).s * (9/10), (rgbToHsl rgb).l * (95/100)⟩) := by
  obtain ⟨h0r, h1r, h0g, h1g, h0b, h1b⟩ := hexToRgb_rgb_bounds h
  obtain ⟨_, _, hs0, hs1, _, _⟩ := rgbToHsl_bounds rgb h0r h1r h0g h1g h0b h1b
  refine ⟨schemeOf (canonicalSeed seed) rgb, generateColorScheme_ok h, rfl, ?_⟩
  show rgbToHex (hslToRgb (indigoHslOf (rgbToHsl rgb))) = _
  unfold indigoHslOf
  rw [min_eq_right (by nlinarith)]

/-- Witness for C5 at the seed `#0ea5e9`. -/
theorem claim_C5_witness :
    ∃ scheme, generateColorScheme "#0ea5e9" = .ok scheme ∧
      scheme.cyan = rgbToHex (hslToRgb
        ⟨180 + jsMod (rgbToHsl ⟨14, 165, 233⟩).h 30,
        min 1 ((rgbToHsl ⟨14, 165, 233⟩).s * (11/10)),
        min (85/100) ((rgbToHsl ⟨14, 165, 233⟩).l + 1/10)⟩) ∧
      scheme.indigo = rgbToHex (hslToRgb
        ⟨240 + jsMod (rgbToHsl ⟨14, 165, 233⟩).h 20,
        (rgbToHsl ⟨14, 165, 233⟩).s * (9/10),
        (rgbToHsl ⟨14, 165, 233⟩).l * (95/100)⟩) :=
  @claim_C5 "#0ea5e9" ⟨14, 165, 233⟩ (by rfl)

/-- C6: lightening the primary by 0.15 strictly increases the channel sum
and darkening by 0.12 strictly decreases it, except at the clamp
boundaries: white cannot be lightened and black cannot be darkened. -/
theorem claim_C6 {seed : String} {rgb : RGB}
    (h : hexToRgb (canonicalSeed seed) = .ok rgb) :
    ∃ scheme rgbL rgbD,
      generateColorScheme seed = .ok scheme ∧
      hexToRgb scheme.primaryLight = .ok rgbL ∧
      hexToRgb scheme.primaryDark = .ok rgbD ∧
      (rgb ≠ ⟨255, 255, 255⟩ → sumChannels rgb < sumChannels rgbL) ∧
      (rgb = ⟨255, 255, 255⟩ → rgbL = rgb) ∧
      (rgb ≠ ⟨0, 0, 0⟩ → sumChannels rgbD < sumChannels rgb) ∧
      (rgb = ⟨0, 0, 0⟩ → rgbD = rgb) := by
  obtain ⟨a, b, c, hv, ha, hb, hc⟩ := hexToRgb_channels h
  obtain ⟨h0r, h1r, h0g, h1g, h0b, h1b⟩ := hexToRgb_rgb_bounds h
  obtain ⟨hh0, hh1, hs0, hs1, hl0, hl1⟩ :=
    rgbToHsl_bounds rgb h0r h1r h0g h1g h0b h1b
  refine ⟨schemeOf (canonicalSeed seed) rgb,
    hslToRgb { rgbToHsl rgb with l := min 1 ((rgbToHsl rgb).l + 15/100) },
    hslToRgb { rgbToHsl rgb with l := max 0 ((rgbToHsl rgb).l - 12/100) },
    generateColorScheme_ok h, ?_, ?_, ?_, ?_, ?_, ?_⟩
  · show hexToRgb (rgbToHex (hslToRgb
      { rgbToHsl rgb with l := min 1 ((rgbToHsl rgb).l + 15/100) })) = _
    rw [hexToRgb_rgbToHex]
    exact congrArg Except.ok (clampRoundRGB_hslToRgb _ hh0 hh1 hs0 hs1
      (le_min (by norm_num) (by linarith)) (min_le_left _ _))
  · show hexToRgb (rgbToHex (hslToRgb
      { rgbToHsl rgb with l := max 0 ((rgbToHsl rgb).l - 12/100) })) = _
    rw [hexToRgb_rgbToHex]
    exact congrArg Except.ok (clampRoundRGB_hslToRgb _ hh0 hh1 hs0 hs1
      (le_max_left _ _) (max_le (by norm_num) (by linarith)))
  · intro hne
    refine sumChannels_lighten (by rw [hv]) (by rw [hv]) (by rw [hv]) ha hb hc ?_
    intro ⟨ra, rb, rc⟩
    apply hne
    rw [hv]
    subst ra
    subst rb
    subst rc
    norm_num
  · intro hweq
    rw [hweq]
    exact lighten_white
  · intro hne
    refine sumChannels_darken (by rw [hv]) (by rw [hv]) (by rw [hv]) ha hb hc ?_
    intro ⟨ra, rb, rc⟩
    apply hne
    rw [hv]
    subst ra
    subst rb
    subst rc
    norm_num
  · intro hweq
    rw [hweq]
    exact darken_black

/-- Witness for C6 at the seed `#0ea5e9`. -/
theorem claim_C6_witness :
    ∃ scheme rgbL rgbD,
      generateColorScheme "#0ea5e9" = .ok scheme ∧
      hexToRgb scheme.primaryLight = .ok rgbL ∧
      hexToRgb scheme.primaryDark = .ok rgbD ∧
      ((⟨14, 165, 233⟩ : RGB) ≠ ⟨255, 255, 255⟩ →
        sumChannels ⟨14, 165, 233⟩ < sumChannels rgbL) ∧
      ((⟨14, 165, 233⟩ : RGB) = ⟨255, 255, 255⟩ → rgbL = ⟨14, 165, 233⟩) ∧
      ((⟨14, 165, 233⟩ : RGB) ≠ ⟨0, 0, 0⟩ →
        sumChannels rgbD < sumChannels ⟨14, 165, 233⟩) ∧
      ((⟨14, 165, 233⟩ : RGB) = ⟨0, 0, 0⟩ → rgbD = ⟨14, 165, 233⟩) :=
  @claim_C6 "#0ea5e9" ⟨14, 165, 233⟩ (by rfl)

/-- C7: the JSON document serializes exactly the six documented fields in
order (no glow or gradient fields), parsing it recovers them, `primary`
round-trips to the canonicalized seed, and `themeColor` equals `primary`. -/
theorem claim_C7 {seed : String} {rgb : RGB}
    (h : hexToRgb (canonicalSeed seed) = .ok rgb) :
    ∃ scheme, generateColorScheme seed = .ok scheme ∧
      parseFlatStringObject (generateJSON scheme) =
        some [("primary", scheme.primary),
          ("primaryLight", scheme.primaryLight),
          ("primaryDark", scheme.primaryDark), ("cyan", scheme.cyan),
          ("indigo", scheme.indigo), ("themeColor", scheme.themeColor)] ∧
      scheme.primary = canonicalSeed seed ∧
      scheme.themeColor = scheme.primary := by
  refine ⟨schemeOf (canonicalSeed seed) rgb, generateColorScheme_ok h, ?_,
    rfl, rfl⟩
  unfold generateJSON
  apply parseFlatStringObject_stringify
  · exact List.cons_ne_nil _ _
  · intro kv hkv
    have k1 : ("primary" : String).data.all isPlainChar = true := by decide
    have k2 : ("primaryLight" : String).data.all isPlainChar = true := by decide
    have k3 : ("primaryDark" : String).data.all isPlainChar = true := by decide
    have k4 : ("cyan" : String).data.all isPlainChar = true := by decide
    have k5 : ("indigo" : String).data.all isPlainChar = true := by decide
    have k6 : ("themeColor" : String).data.all isPlainChar = true := by decide
    simp only [List.mem_cons, List.not_mem_nil, or_false] at hkv
    rcases hkv with rfl | rfl | rfl | rfl | rfl | rfl
    · exact ⟨k1, plain_canonicalSeed h⟩
    · exact ⟨k2, plain_rgbToHex _⟩
    · exact ⟨k3, plain_rgbToHex _⟩
    · exact ⟨k4, plain_rgbToHex _⟩
    · exact ⟨k5, plain_rgbToHex _⟩
    · exact ⟨k6, plain_canonicalSeed h⟩

/-- Witness for C7 at the seed `#0ea5e9`. -/
theorem claim_C7_witness :
    ∃ scheme, generateColorScheme "#0ea5e9" = .ok scheme ∧
      parseFlatStringObject (generateJSON scheme) =
        some [("primary", scheme.primary),
          ("primaryLight", scheme.primaryLight),
          ("primaryDark", scheme.primaryDark), ("cyan", scheme.cyan),
          ("indigo", scheme.indigo), ("themeColor", scheme.themeColor)] ∧
      scheme.primary = canonicalSeed "#0ea5e9" ∧
      scheme.themeColor = scheme.primary :=
  @claim_C7 "#0ea5e9" ⟨14, 165, 233⟩ (by rfl)

/-- C8: `getLuminance` computes the spec's relative-luminance formula over
gamma-expanded normalized channels, and `shouldUseWhiteText` holds exactly
when that luminance is below 0.5. -/
theorem claim_C8 {hex : String} {rgb : RGB} (h : hexToRgb hex = .ok rgb) :
    getLuminance hex = .ok (relativeLuminanceSpec rgb) ∧
    shouldUseWhiteText hex = .ok (relativeLuminanceSpec rgb < 0.5) := by
  constructor
  · unfold getLuminance
    rw [h]
    unfold relativeLuminanceSpec gammaExpandSpec gammaExpand
    rfl
  · unfold shouldUseWhiteText getLuminance
    rw [h]
    unfold relativeLuminanceSpec gammaExpandSpec gammaExpand
    rfl

/-- Witness for C8 at the seed `#0ea5e9`. -/
theorem claim_C8_witness :
    getLuminance "#0ea5e9" = .ok (relativeLuminanceSpec ⟨14, 165, 233⟩) ∧
    shouldUseWhiteText "#0ea5e9" =
      .ok (relativeLuminanceSpec ⟨14, 165, 233⟩ < 0.5) :=
  @claim_C8 "#0ea5e9" ⟨14, 165, 233⟩ (by rfl)

/-- C9: `primary` and `themeColor` keep the seed's characters verbatim
(the canonicalization only prepends a missing `#`, never changes case),
while the derived `primaryLight`, `primaryDark`, `cyan` and `indigo` fields
are lowercase `#rrggbb` strings produced by `rgbToHex`. -/
theorem claim_C9 {seed : String} {rgb : RGB}
    (h : hexToRgb (canonicalSeed seed) = .ok rgb) :
    ∃ scheme, generateColorScheme seed = .ok scheme ∧
      scheme.primary = canonicalSeed seed ∧
      scheme.themeColor = canonicalSeed seed ∧
      (canonicalSeed seed = seed ∨ canonicalSeed seed = "#" ++ seed) ∧
      matchesLowerHexPattern scheme.primaryLight = true ∧
      matchesLowerHexPattern scheme.primaryDark = true ∧
      matchesLowerHexPattern scheme.cyan = true ∧
      matchesLowerHexPattern scheme.indigo = true := by
  refine ⟨schemeOf (canonicalSeed seed) rgb, generateColorScheme_ok h,
    rfl, rfl, canonicalSeed_cases seed, ?_, ?_, ?_, ?_⟩
  · show matchesLowerHexPattern (rgbToHex (hslToRgb _)) = true
    exact matchesLowerHexPattern_rgbToHex _
  · show matchesLowerHexPattern (rgbToHex (hslToRgb _)) = true
    exact matchesLowerHexPattern_rgbToHex _
  · show matchesLowerHexPattern (rgbToHex (hslToRgb _)) = true
    exact matchesLowerHexPattern_rgbToHex _
  · show matchesLowerHexPattern (rgbToHex (hslToRgb _)) = true
    exact matchesLowerHexPattern_rgbToHex _

/-- Witness for C9 at the uppercase, hash-less seed `0EA5E9`. -/
theorem claim_C9_witness :
    ∃ scheme, generateColorScheme "0EA5E9" = .ok scheme ∧
      scheme.primary = canonicalSeed "0EA5E9" ∧
      scheme.themeColor = canonicalSeed "0EA5E9" ∧
      (canonicalSeed "0EA5E9" = "0EA5E9" ∨
        canonicalSeed "0EA5E9" = "#" ++ "0EA5E9") ∧
      matchesLowerHexPattern scheme.primaryLight = true ∧
      matchesLowerHexPattern scheme.primaryDark = true ∧
      matchesLowerHexPattern scheme.cyan = true ∧
      matchesLowerHexPattern scheme.indigo = true :=
  @claim_C9 "0EA5E9" ⟨14, 165, 233⟩ (by rfl)

/-- C10: `rgbToHex` is total over arbitrary rational channel values:
every channel is clamped into `[0,255]` before rounding, so the output
always matches `^#[0-9a-f]{6}$` and has exactly 7 characters. -/
theorem claim_C10 (v : RGB) :
    matchesLowerHexPattern (rgbToHex v) = true ∧
    (rgbToHex v).data.length = 7 := by
  refine ⟨matchesLowerHexPattern_rgbToHex v, ?_⟩
  rw [rgbToHex_data]
  rfl
